import Mathlib

/-!
Verification of the Infra-RCA orchestration engine (`src/infra_rca`) against
its natural-language specification.

The Python sources are shallowly embedded: strings are Lean `String`s
(inspected through their `List Char` representation), Python dictionaries of
diagnostic text become a `Bundle` structure, the reasoning backend's raw
responses are universally-quantified `String` parameters, and every partial
Python construct is modelled by a total Lean function.  `time.time()` values
are modelled as `Nat` (Python's float subtraction compared against the
cooldown window agrees with truncated `Nat` subtraction on both sides of the
comparison).  Newlines are modelled as the single character `'\n'`, matching
the texts the agent actually produces; `str.lower`/`str.upper` are modelled
on the ASCII range via `Char.toLower`/`Char.toUpper`, which is the alphabet
of every keyword and label the code compares against.
-/

set_option maxRecDepth 1000000

/-! ## Python-style string primitives -/

/-- The backtick character (used in fence handling); written via its code
point so the development never spells the character literally. -/
def btick : Char := Char.ofNat 96

/-- Python whitespace (`str.strip`, regex `\s`) restricted to ASCII:
space, tab, newline, carriage return, vertical tab, form feed. -/
def isPyWs (c : Char) : Bool :=
  c = ' ' || c = '\t' || c = '\n' || c = '\x0d' || c = Char.ofNat 11 || c = Char.ofNat 12

/-- `str.lstrip()` on a character list. -/
def pyStripL (l : List Char) : List Char := l.dropWhile isPyWs

/-- `str.rstrip()` on a character list. -/
def pyStripR (l : List Char) : List Char := (pyStripL l.reverse).reverse

/-- `str.strip()` on a character list. -/
def pyStripList (l : List Char) : List Char := pyStripR (pyStripL l)

/-- `str.strip()` on a `String`. -/
def pyStripS (s : String) : String := (pyStripList s.toList).asString

/-- Bool-valued prefix test on character lists. -/
def listIsPrefix : List Char → List Char → Bool
  | [], _ => true
  | _ :: _, [] => false
  | a :: as, b :: bs => a = b && listIsPrefix as bs

/-- Python's `needle in hay` substring test, on character lists. -/
def listContains (hay needle : List Char) : Bool :=
  if listIsPrefix needle hay then true
  else match hay with
    | [] => false
    | _ :: t => listContains t needle

/-- Python's `needle in hay` substring test on strings. -/
def containsStr (hay needle : String) : Bool := listContains hay.toList needle.toList

/-- ASCII `str.lower()` on character lists. -/
def toLowerL (l : List Char) : List Char := l.map Char.toLower

/-- ASCII `str.lower()` on strings (kernel-reducible, unlike `String.toLower`). -/
def lowerS (s : String) : String := (toLowerL s.toList).asString

/-- `str.startswith` on strings. -/
def startsWithS (s pre : String) : Bool := listIsPrefix pre.toList s.toList

/-- Case-insensitive prefix test (both sides lowered per character). -/
def ciHasPrefixOf (needle : String) (l : List Char) : Bool :=
  listIsPrefix (toLowerL needle.toList) (toLowerL l)

/-- Everything after the first `':'` of a string (Python `s.split(":", 1)[1]`);
returns `""` when no colon occurs (the callers guard on a `":"`-containing
prefix, so that case is unreachable there). -/
def afterFirstColonL : List Char → List Char
  | [] => []
  | c :: cs => if c = ':' then cs else afterFirstColonL cs

def afterFirstColonS (s : String) : String := (afterFirstColonL s.toList).asString

/-- Python `str.capitalize()` (ASCII model: first character uppercased, the
rest lowercased). -/
def pyCapitalize (s : String) : String :=
  match s.toList with
  | [] => ""
  | c :: cs => (Char.toUpper c :: cs.map Char.toLower).asString

/-- Lexicographic code-point comparison, Python's `<` on strings. -/
def listLtL : List Char → List Char → Bool
  | [], [] => false
  | [], _ :: _ => true
  | _ :: _, [] => false
  | a :: as, b :: bs =>
    if a.toNat < b.toNat then true
    else if a.toNat = b.toNat then listLtL as bs
    else false

/-- `a ≤ b` for the sort used by Python `sorted`. -/
def strLeKey (a b : String) : Bool := !(listLtL b.toList a.toList)

/-- Stable insertion of a string into an ascending list (for Python `sorted`). -/
def insertAsc (x : String) : List String → List String
  | [] => [x]
  | y :: ys => if strLeKey x y then x :: y :: ys else y :: insertAsc x ys

/-- Python `sorted` on strings (insertion sort, ascending). -/
def sortStrings : List String → List String
  | [] => []
  | x :: xs => insertAsc x (sortStrings xs)

/-- Deduplication keeping first occurrences (Python set-formation order is
irrelevant here because the result is sorted afterwards). -/
def dedupKeepFirst : List String → List String
  | [] => []
  | x :: xs => if x ∈ xs then dedupKeepFirst xs else x :: dedupKeepFirst xs

/-! ## DiagnosticBundle and the signal extractor (`AgenticInfraRCA.extract_signals`) -/

/-- The dictionary returned by `K8sHelper.collect_resource_data`:
keys `describe`, `events`, `logs`, `metrics` in insertion order. -/
structure Bundle where
  describe : String
  events : String
  logs : String
  metrics : String
deriving Repr, DecidableEq

/-- `" ".join(data.values()).lower()` from `extract_signals`. -/
def signalText (d : Bundle) : String :=
  lowerS (String.intercalate " " [d.describe, d.events, d.logs, d.metrics])

/-- The fixed pattern table of `extract_signals`, in source order. -/
def signalPatterns : List (String × String) :=
  [ ("crashloopbackoff", "CrashLoopBackOff"),
    ("back-off restarting", "CrashLoopBackOff"),
    ("imagepullbackoff", "ImagePullBackOff"),
    ("failed to pull image", "ImagePullBackOff"),
    ("errimagepull", "ImagePullBackOff"),
    ("oomkilled", "OOMKilled"),
    ("memorypressure", "NodeMemoryPressure"),
    ("diskpressure", "NodeDiskPressure"),
    ("failedscheduling", "FailedScheduling"),
    ("unschedulable", "FailedScheduling"),
    ("evicted", "Evicted"),
    ("node not ready", "NodeNotReady"),
    ("dns", "DNSIssue"),
    ("readinessprobe failed", "ProbeFailure"),
    ("livenessprobe failed", "ProbeFailure"),
    ("no such host", "DNSIssue"),
    ("progressdeadlineexceeded", "FailedRollout"),
    ("unavailable", "UnavailableReplicas"),
    ("connection refused", "ServiceUnavailable"),
    ("timeout", "TimeoutError"),
    ("pod has unbound immediate persistentvolumeclaims", "PVCUnbound") ]

/-- The generic failure vocabulary tested when no pattern matched. -/
def genericFailureWords : List String := ["error", "fail", "exception", "critical"]

/-- Tags whose pattern key occurs in the lowered text, in table order. -/
def matchedSignals (text : String) : List String :=
  (signalPatterns.filter (fun p => containsStr text p.fst)).map (fun p => p.snd)

/-- Body of `extract_signals` once the lowered text is fixed. -/
def extract_from_text (text : String) : String :=
  let s0 := dedupKeepFirst (matchedSignals text)
  let s1 := if s0.isEmpty && genericFailureWords.any (fun w => containsStr text w) then
    ["GeneralError"] else s0
  if s1.isEmpty then "None" else String.intercalate ", " (sortStrings s1)

/-- `AgenticInfraRCA.extract_signals` (src/infra_rca/agent.py lines 28-57). -/
def extract_signals (d : Bundle) : String := extract_from_text (signalText d)

-- quick sanity examples (concrete evaluation)
example : extract_signals ⟨"CrashLoopBackOff", "", "OOMKilled", ""⟩ = "CrashLoopBackOff, OOMKilled" := by decide
example : extract_signals ⟨"", "", "", ""⟩ = "None" := by decide
example : extract_signals ⟨"a fatal error", "", "", ""⟩ = "GeneralError" := by decide

/-! ## ReportRenderer (`build_markdown_generic`, src/infra_rca/utils/markdown_helper.py) -/

/-- The lines of the report that are always present (title, optional category,
root cause, reasoning, recommendations) — everything except the patch
section. -/
def mdBaseLines (kind name : String) (ns : Option String)
    (root_cause reasoning : String) (recommendations : List String)
    (category : String) : List String :=
  ["# RCA Report for " ++ kind ++ ": `" ++ name ++ "`" ++
      (match ns with
       | some s => if s ≠ "" then " (Namespace: `" ++ s ++ "`)" else ""
       | none => "")]
  ++ (if category ≠ "" then ["### 🧩 Category: " ++ category] else [])
  ++ ["\n## 🧠 Root Cause\n" ++ root_cause,
      "\n## 💡 Reasoning\n" ++ reasoning,
      "\n## 🛠 Recommendations\n" ++
        String.intercalate "\n" (recommendations.map (fun r => "- " ++ r))]

/-- The guard on the patch section (`if patch_yaml and not
patch_yaml.strip().startswith("# No manifest change") and patch_yaml.strip()`). -/
def patchSectionCond (patch_yaml : String) : Bool :=
  patch_yaml ≠ "" &&
  !(startsWithS (pyStripS patch_yaml) "# No manifest change") &&
  pyStripS patch_yaml ≠ ""

/-- `build_markdown_generic` (markdown_helper.py lines 1-17). -/
def build_markdown_generic (kind name : String) (ns : Option String)
    (root_cause reasoning : String) (recommendations : List String)
    (patch_yaml category : String) : String :=
  String.intercalate "\n"
    (mdBaseLines kind name ns root_cause reasoning recommendations category ++
      (if patchSectionCond patch_yaml then
        ["\n## 🧩 Suggested Manifest Patch\n```yaml\n" ++ pyStripS patch_yaml ++ "\n```"]
      else []))

/-! ## ResourceAnalyzer (`AgenticInfraRCA.analyze_resource`, agent.py lines 62-159) -/

/-- The dictionary returned by `InfraRCAHelper.run_rca`; an all-empty value
models both `run_rca() or {}` returning a falsy value and the `except` path
that resets `diag = {}` (every read in `analyze_resource` goes through
`diag.get(...) or default`). -/
structure Diag where
  root_cause : String
  reasoning : String
  recommendations : List String
  patch_yaml : String
  category : String
deriving Repr, DecidableEq

/-- `{}`: the empty Diagnosis used when the reasoning call raises. -/
def emptyDiag : Diag := ⟨"", "", [], "", ""⟩

/-- `not any((v or "").strip() for v in data.values())`:
the bundle is entirely empty after trimming. -/
def bundleAllBlank (d : Bundle) : Bool :=
  pyStripS d.describe = "" && pyStripS d.events = "" &&
  pyStripS d.logs = "" && pyStripS d.metrics = ""

/-- The structured result dict built at the end of `analyze_resource`. -/
structure AnalysisResult where
  kind : String
  name : String
  ns : Option String
  root_cause : String
  reasoning : String
  recommendations : List String
  patch_yaml : String
  category : String
  markdown : String
deriving Repr, DecidableEq

/-- `AgenticInfraRCA.analyze_resource` (agent.py lines 62-159).

The two external collaborators are passed as values: `metrics_summary` is
whatever `self.metrics.summarize_pod`/`summarize_nodes` returned for this
kind, and `dg` is the dictionary produced by `self.rca.run_rca` (or
`emptyDiag` when that call raised or returned a falsy value).  Returns
`none` exactly on the early `return None` for empty bundles — in that case
the result does not depend on `metrics_summary` or `dg` at all, which is the
shallow-embedding form of "the metrics summarizer, signal extraction and the
reasoning backend are not invoked". -/
def analyze_resource (kind name : String) (ns : Option String)
    (data : Bundle) (metrics_summary : String) (dg : Diag) :
    Option AnalysisResult :=
  if bundleAllBlank data then none
  else
    let signals := extract_signals data
    let root_cause0 := pyStripS dg.root_cause
    let reasoning0 := pyStripS dg.reasoning
    let recommendations0 := dg.recommendations
    let patch0 := pyStripS dg.patch_yaml
    let category :=
      if pyStripS dg.category = "" then "General Anomaly" else pyStripS dg.category
    let root_cause :=
      if root_cause0 = "" ∨ root_cause0.length < 5 then
        "Root cause not identifiable"
      else root_cause0
    let nsDisplay :=
      match ns with
      | some s => if s ≠ "" then s else "default"
      | none => "default"
    let reasoning :=
      if reasoning0 = "" ∨ reasoning0.length < 20 then
        "No sufficient diagnostic context for " ++ kind ++ " `" ++ name ++ "` " ++
        "in namespace `" ++ nsDisplay ++ "`. " ++
        "Detected signals: " ++ signals ++ ". " ++
        "Possible transient or resolved condition."
      else reasoning0
    let recommendations :=
      if recommendations0 = [] then
        ["No specific remediation identified for " ++ kind ++ " `" ++ name ++ "`."]
      else recommendations0
    let kindLower := lowerS kind
    let patch_yaml :=
      if patch0 = "" ∨ lowerS patch0 ∈ ["# none", "none"] ∨ (pyStripS patch0).length < 5 then
        if kindLower ∈ ["node", "service", "persistentvolume", "pvc"] then ""
        else "# No manifest change required."
      else patch0
    let md := build_markdown_generic kind name ns root_cause reasoning
      recommendations patch_yaml category
    some { kind := kind, name := name, ns := ns, root_cause := root_cause,
           reasoning := reasoning, recommendations := recommendations,
           patch_yaml := patch_yaml, category := category, markdown := md }

-- sanity: empty bundle returns absent
example : analyze_resource "Pod" "p" none ⟨"", " ", "", "\n"⟩ "cpu" emptyDiag = none := by decide
-- sanity: non-node kind with trivial patch gets the "no manifest change" sentinel
example :
    (analyze_resource "Pod" "p" none ⟨"x", "", "", ""⟩ "m" emptyDiag).map
      (fun r => r.patch_yaml) = some "# No manifest change required." := by decide

/-! ## CooldownCache (`should_skip_rca`, src/infra_rca/watch_agent.py lines 63-72) -/

/-- `RCA_COOLDOWN = 300  # 5 minutes`. -/
def RCA_COOLDOWN : Nat := 300

/-- `key = f"{kind}:{name}:{ns}"`. -/
def cacheKey (kind name ns : String) : String := kind ++ ":" ++ name ++ ":" ++ ns

/-- Lookup in the persisted `last_rca_time` mapping.  The dict is modelled as
an association list whose first binding for a key is authoritative; the
dict-assignment `last_rca_time[key] = now` is modelled by consing a new
binding in front. -/
def lookupTime : List (String × Nat) → String → Option Nat
  | [], _ => none
  | (k, t) :: rest, key => if k = key then some t else lookupTime rest key

/-- `should_skip_rca(kind, name, ns)` (watch_agent.py lines 63-72), with the
global `last_rca_time` dict and `time.time()` made explicit.  Returns the
boolean result together with the updated cache; `save_cache()` persists the
returned map as a side effect and is not modelled further. -/
def should_skip_rca (cache : List (String × Nat)) (kind name ns : String)
    (now : Nat) : Bool × List (String × Nat) :=
  let key := cacheKey kind name ns
  match lookupTime cache key with
  | some t => if now - t < RCA_COOLDOWN then (true, cache)
              else (false, (key, now) :: cache)
  | none => (false, (key, now) :: cache)

example : (should_skip_rca [] "Pod" "p" "default" 1000).fst = false := by decide
example :
    should_skip_rca (should_skip_rca [] "Pod" "p" "default" 1000).snd "Pod" "p" "default" 1100
      = (true, [("Pod:p:default", 1000)]) := by decide

/-! ## ClusterScanner (`AgenticInfraRCA.analyze_cluster`, agent.py lines 165-214) -/

/-- Outcome of one fanned-out `analyze_resource` task as observed through
`asyncio.gather(..., return_exceptions=True)`: either the exception raised
inside the task (carried as its message text) or the returned value. -/
inductive TaskOutcome where
  | exn (msg : String)
  | ok (r : Option AnalysisResult)
deriving Repr, DecidableEq

/-- The aggregation loop over gathered results (agent.py lines 199-205): an
exception becomes an inline `{"markdown": "# ⚠️ Analyzer error: ..."}` entry,
`None` results are dropped, and every dict's `markdown` is collected in task
(enumeration) order. -/
def collectMarkdowns : List TaskOutcome → List String
  | [] => []
  | .exn m :: rest => ("# ⚠️ Analyzer error: " ++ m) :: collectMarkdowns rest
  | .ok none :: rest => collectMarkdowns rest
  | .ok (some r) :: rest => r.markdown :: collectMarkdowns rest

/-- The fixed delimiter between per-resource reports. -/
def reportDelim : String := "\n\n-------------------------------------------------------\n\n"

/-- The system deny-list of `K8sHelper.list_namespaces`. -/
def excludedNamespaces : List String :=
  ["kube-system", "kube-public", "kube-node-lease", "monitoring"]

/-- `K8sHelper.list_namespaces` post-processing (k8s_helper.py lines 61-76):
the raw namespace names returned by the API/CLI, filtered by the deny-list
when `exclude_system` is set. -/
def list_namespaces (allNamespaces : List String) (excludeSystem : Bool) : List String :=
  if excludeSystem then allNamespaces.filter (fun n => n ∉ excludedNamespaces)
  else allNamespaces

/-- Result of one cluster scan: the aggregate report, whether
`cluster_rca_report.md` was written, and the enumerated per-resource tasks. -/
structure ScanResult where
  report : String
  fileWritten : Bool
  resources : List (String × String × Option String)
deriving Repr, DecidableEq

/-- The default `kinds` argument of `analyze_cluster`. -/
def defaultKinds : List String := ["Pod", "Node", "Deployment", "Service"]

/-- `AgenticInfraRCA.analyze_cluster` (agent.py lines 165-214).

External collaborators are parameters: `allNamespaces` is what the cluster
API/CLI reports before deny-list filtering, `listNode`/`listRes` are
`K8sHelper.list_resources` for cluster-scoped nodes and namespaced kinds,
and `runTask` is one pooled `analyze_resource` task — `TaskOutcome.exn` when
the task raised (captured by `return_exceptions=True`), otherwise its return
value.  `asyncio.gather` yields results in task submission order, so the
aggregation over `resources.map runTask` is in enumeration order. -/
def analyze_cluster (allNamespaces : List String) (excludeSystem : Bool)
    (listNode : List String) (listRes : String → String → List String)
    (runTask : String → String → Option String → TaskOutcome)
    (kinds : List String) : ScanResult :=
  let namespaces := list_namespaces allNamespaces excludeSystem
  if namespaces = [] then { report := "", fileWritten := false, resources := [] }
  else
    let resources := kinds.foldl (fun acc kind =>
      if lowerS kind = "node" then
        acc ++ listNode.map (fun n => ("Node", n, (none : Option String)))
      else
        acc ++ namespaces.foldl (fun acc2 ns2 =>
          acc2 ++ (listRes kind ns2).map (fun n => (kind, n, some ns2))) []) []
    if resources = [] then { report := "", fileWritten := false, resources := [] }
    else
      let outs := resources.map (fun t => runTask t.1 t.2.1 t.2.2)
      let parts := collectMarkdowns outs
      if parts = [] then { report := "", fileWritten := false, resources := resources }
      else { report := String.intercalate reportDelim parts, fileWritten := true,
             resources := resources }

example :
    analyze_cluster ["kube-system"] true ["n1"] (fun _ _ => []) (fun _ _ _ => .ok none)
      defaultKinds
      = { report := "", fileWritten := false, resources := [] } := by decide


/-! ## Patch cleanup (`run_rca` step 6, dspy_helper.py lines 195-216)

`re.sub(r"```+yaml", "", s)` removes every run of three-or-more backticks
immediately followed by `yaml` (together with the `yaml`); `re.sub(r"```+",
"", s)` then removes every remaining run of three-or-more backticks.  Both
are modelled by recursion over maximal backtick runs, which agrees with
`re.sub`'s left-to-right non-overlapping scan: a match can only begin at the
start of a maximal run (every proper suffix of a run is followed by the same
non-matching remainder), and the greedy `+` consumes the whole run. -/

def subFenceYamlF : Nat → Nat → List Char → List Char
  | _, n, [] => List.replicate n btick
  | 0, n, l => List.replicate n btick ++ l
  | fuel + 1, n, c :: cs =>
    if c = btick then subFenceYamlF fuel (n + 1) cs
    else if 3 ≤ n ∧ listIsPrefix "yaml".toList (c :: cs) then
      subFenceYamlF fuel 0 ((c :: cs).drop 4)
    else List.replicate n btick ++ c :: subFenceYamlF fuel 0 cs

/-- `re.sub(r"```+yaml", "", s)`: `n` counts the backticks of the current
maximal run; a run of length ≥ 3 directly followed by `yaml` is removed
together with the `yaml`, every other character is kept.  The fuel
(initially the length of the list, which bounds the number of steps) only
makes the recursion structural; it is never exhausted. -/
def subFenceYaml (l : List Char) : List Char := subFenceYamlF l.length 0 l

def subFenceAux : Nat → List Char → List Char
  | n, [] => if 3 ≤ n then [] else List.replicate n btick
  | n, c :: cs =>
    if c = btick then subFenceAux (n + 1) cs
    else if 3 ≤ n then c :: subFenceAux 0 cs
    else List.replicate n btick ++ c :: subFenceAux 0 cs

/-- `re.sub(r"```+", "", s)`: every maximal backtick run of length ≥ 3 is
removed, shorter runs are kept. -/
def subFence (l : List Char) : List Char := subFenceAux 0 l

/-- Python `str.splitlines()` restricted to `'\n'` separators.  (For a text
ending in `'\n'` this produces one extra empty final line that Python omits;
the cleanup joins the lines back with `"\n"` and strips the result, which
erases the difference, and a trailing empty line never changes earlier
deduplication decisions.) -/
def splitLinesL : List Char → List (List Char)
  | [] => [[]]
  | c :: cs =>
    if c = '\n' then [] :: splitLinesL cs
    else
      match splitLinesL cs with
      | [] => [[c]]
      | L :: Ls => (c :: L) :: Ls

/-- `"\n".join(...)`. -/
def joinLinesL : List (List Char) → List Char
  | [] => []
  | [x] => x
  | x :: y :: xs => x ++ '\n' :: joinLinesL (y :: xs)

/-- The `seen`-set line deduplication of the cleanup (first-seen stripped
line wins; later lines with an equal stripped form are dropped). -/
def dedupLinesAux (seen : List (List Char)) : List (List Char) → List (List Char)
  | [] => []
  | x :: xs =>
    if pyStripList x ∈ seen then dedupLinesAux seen xs
    else x :: dedupLinesAux (pyStripList x :: seen) xs

def dedupLines (ls : List (List Char)) : List (List Char) := dedupLinesAux [] ls

/-- Length of the lazy capture of `re.findall(r"(spec:.*?)(?=\n\S|$)", s,
re.DOTALL)` measured from just after the literal `spec:`: the capture stops
at the first position followed by a newline and a non-whitespace character,
at the end of the string, or just before a single trailing newline (Python's
`$` also matches there). -/
def lazyCount : List Char → Nat
  | [] => 0
  | ['\n'] => 0
  | '\n' :: c :: rest => if isPyWs c then 1 + lazyCount (c :: rest) else 0
  | _ :: rest => 1 + lazyCount rest

/-- The lazy capture and the remainder (starting at the zero-width
terminator) for the `spec:` block scan. -/
def takeLazy (l : List Char) : List Char × List Char :=
  (l.take (lazyCount l), l.drop (lazyCount l))

/-- All captures of `re.findall(r"(spec:.*?)(?=\n\S|$)", s, re.DOTALL)`, the
scan resuming at the terminator of each match.  The fuel argument (run with
the length of the list, which bounds the number of scan steps) only makes
the recursion structural; it is never exhausted. -/
def findSpecBlocksF : Nat → List Char → List (List Char)
  | 0, _ => []
  | _, [] => []
  | fuel + 1, l@(_ :: cs) =>
    if listIsPrefix "spec:".toList l then
      ("spec:".toList ++ (takeLazy (l.drop 5)).1) :: findSpecBlocksF fuel (takeLazy (l.drop 5)).2
    else findSpecBlocksF fuel cs

def findSpecBlocks (l : List Char) : List (List Char) := findSpecBlocksF l.length l

/-- `max(yaml_blocks, key=len)`: the first block of maximal length. -/
def pickLongest : List (List Char) → List Char
  | [] => []
  | x :: xs => xs.foldl (fun acc b => if acc.length < b.length then b else acc) x

/-- `run_rca`'s "keep longest YAML block if multiple" step. -/
def blockStage (l : List Char) : List Char :=
  let blocks := findSpecBlocks l
  if 1 < blocks.length then pyStripList (pickLongest blocks) else l

/-- `if not patch_yaml or patch_yaml.lower() in ["# none", "none", ""]:
patch_yaml = "# none"`. -/
def noneNorm (l : List Char) : List Char :=
  if l = [] ∨ toLowerL l ∈ ["# none".toList, "none".toList, ([] : List Char)] then
    "# none".toList
  else l

/-- Strip + fence removal + line dedup (+ re-strip): the cleanup up to and
including `patch_yaml = "\n".join(clean_lines).strip()`. -/
def dedupStage (l : List Char) : List Char :=
  pyStripList (joinLinesL (dedupLines (splitLinesL l)))

def preBlock (l : List Char) : List Char :=
  dedupStage (subFence (subFenceYaml (pyStripList l)))

/-- The patch cleanup step of `run_rca` (dspy_helper.py lines 195-216),
applied to the combined candidate patch text. -/
def cleanupPatch (l : List Char) : List Char := noneNorm (blockStage (preBlock l))

def cleanupPatchS (s : String) : String := (cleanupPatch s.toList).asString

-- sanity checks against the Python behaviour
example : cleanupPatchS "" = "# none" := by decide
example : cleanupPatchS "```yaml\nspec:\n  replicas: 2\n```" = "spec:\n  replicas: 2" := by decide
example : cleanupPatchS "a\na\nb" = "a\nb" := by decide
example : cleanupPatchS "None" = "# none" := by decide

/-! ## ReasoningClient (`InfraRCAHelper.run_rca`, dspy_helper.py lines 82-273)

The backend is external: `text` is whatever the primary/fallback generation
returned (run_rca's behaviour is a pure function of it), and `retry_text` is
what the secondary backend would return for the refined prompt of the smart
retry, consulted only when the retry fires. -/

/-- `\w` of the patch-keyword regex (ASCII): letters, digits, underscore. -/
def isWordChar (c : Char) : Bool := c.isAlphanum || c = '_'

/-- Case-insensitive literal match at the head; returns the remainder. -/
def matchCI (pat : String) (l : List Char) : Option (List Char) :=
  if ciHasPrefixOf pat l then some (l.drop pat.length) else none

/-- `Root\s*Cause\s*:` matched (case-insensitively) at the head; returns the
remainder after the colon.  The greedy `\s*` runs are deterministic: they
stop at the first non-whitespace character, and shorter alternatives would
leave a whitespace character where a letter or `:` is required. -/
def matchRootCauseLabel (l : List Char) : Option (List Char) :=
  match matchCI "root" l with
  | none => none
  | some r1 =>
    match matchCI "cause" (r1.dropWhile isPyWs) with
    | none => none
    | some r2 =>
      match r2.dropWhile isPyWs with
      | ':' :: r3 => some r3
      | _ => none

/-- `Reasoning\s*:` matched at the head; returns the remainder. -/
def matchReasoningLabel (l : List Char) : Option (List Char) :=
  match matchCI "reasoning" l with
  | none => none
  | some r1 =>
    match r1.dropWhile isPyWs with
    | ':' :: r2 => some r2
    | _ => none

/-- `re.search`: first position (left to right) where the matcher succeeds. -/
def searchFrom (m : List Char → Option (List Char)) : List Char → Option (List Char)
  | [] => m []
  | l@(_ :: t) =>
    match m l with
    | some r => some r
    | none => searchFrom m t

/-- Terminators of the root-cause fallback capture
(`(?:Reasoning:|Recommendations:|Patch:|$)`, case-insensitive). -/
def isTermRC (l : List Char) : Bool :=
  ciHasPrefixOf "reasoning:" l || ciHasPrefixOf "recommendations:" l || ciHasPrefixOf "patch:" l

/-- Terminators of the reasoning fallback capture
(`(?:Recommendations:|Patch:|$)`). -/
def isTermR (l : List Char) : Bool :=
  ciHasPrefixOf "recommendations:" l || ciHasPrefixOf "patch:" l

/-- The lazy `(.*?)` capture (DOTALL): everything up to the first position
where a terminator matches, or to the end of the text. -/
def captureUntilTerm (term : List Char → Bool) : List Char → List Char
  | [] => []
  | l@(c :: cs) => if term l then [] else c :: captureUntilTerm term cs

/-- `re.search(r"Root\s*Cause\s*:\s*(.*?)(?:Reasoning:|Recommendations:|Patch:|$)",
text, re.IGNORECASE | re.DOTALL)` followed by `.group(1).strip()`.  The
greedy `\s*` after the colon cannot skip a terminator or capture material
(terminators begin with letters), so the stripped capture is the stripped
text between the label and the first terminator. -/
def rcRegexFallback (text : List Char) : Option (List Char) :=
  (searchFrom matchRootCauseLabel text).map
    (fun r => pyStripList (captureUntilTerm isTermRC (r.dropWhile isPyWs)))

/-- `re.search(r"Reasoning\s*:\s*(.*?)(?:Recommendations:|Patch:|$)", ...)`
followed by `.group(1).strip()`. -/
def reasoningRegexFallback (text : List Char) : Option (List Char) :=
  (searchFrom matchReasoningLabel text).map
    (fun r => pyStripList (captureUntilTerm isTermR (r.dropWhile isPyWs)))

/-- Raw captures of `re.findall(r"-\s+(.*)", text)`: at each unconsumed `-`
followed by at least one whitespace character, the greedy `\s+` consumes the
maximal whitespace run and `(.*)` captures the rest of that line; the scan
resumes after the capture.  (`run_rca` also uses `r"-\s+([^\n]+)"`, whose
raw captures differ only by matches whose capture is pure whitespace; both
callers strip the captures and drop the empty ones, so the two coincide
there.)  The fuel (initially the length of the text, a bound on the scan
steps) only makes the recursion structural. -/
def pyFindAllDashF : Nat → List Char → List (List Char)
  | 0, _ => []
  | _, [] => []
  | fuel + 1, '-' :: rest =>
    match rest with
    | [] => []
    | c :: _ =>
      if isPyWs c then
        let after := rest.dropWhile isPyWs
        let cap := after.takeWhile (fun x => x ≠ '\n')
        cap :: pyFindAllDashF fuel (after.drop cap.length)
      else pyFindAllDashF fuel rest
  | fuel + 1, _ :: rest => pyFindAllDashF fuel rest

def pyFindAllDash (l : List Char) : List (List Char) := pyFindAllDashF l.length l

/-- First closing triple backtick: returns (text before it, text after it). -/
def findCloseFence : List Char → Option (List Char × List Char)
  | [] => none
  | l@(c :: cs) =>
    if listIsPrefix [btick, btick, btick] l then some ([], l.drop 3)
    else
      match findCloseFence cs with
      | none => none
      | some pr => some (c :: pr.1, pr.2)

/-- Captures of `re.compile(r"```(?:yaml)?\s*(.*?)```", re.DOTALL |
re.IGNORECASE).findall(text)`: at an opening triple backtick, an optional
case-insensitive `yaml` is consumed greedily, leading whitespace is skipped
by the greedy `\s*`, and the lazy capture runs to the first closing triple
backtick (if the optional `yaml` was consumed and no closing fence follows,
none follows without it either, since `yaml` contains no backtick).  The
scan resumes after the closing fence. -/
def findFenceBlocksF : Nat → List Char → List (List Char)
  | 0, _ => []
  | _, [] => []
  | fuel + 1, l@(_ :: cs) =>
    if listIsPrefix [btick, btick, btick] l then
      let r1 := l.drop 3
      let r2 := if ciHasPrefixOf "yaml" r1 then r1.drop 4 else r1
      match findCloseFence (r2.dropWhile isPyWs) with
      | some pr => pr.1 :: findFenceBlocksF fuel pr.2
      | none => findFenceBlocksF fuel cs
    else findFenceBlocksF fuel cs

def findFenceBlocks (l : List Char) : List (List Char) := findFenceBlocksF l.length l

/-- The manifest keywords of `re.search(r"\b(spec|containers|image|metadata|apiVersion)\b", block)`
(case-sensitive). -/
def manifestKws : List String := ["spec", "containers", "image", "metadata", "apiVersion"]

/-- One keyword matched at the head with `\b` boundaries on both sides
(`prev` is the character before the match position, if any). -/
def kwAt (prev : Option Char) (kw : List Char) (l : List Char) : Bool :=
  listIsPrefix kw l &&
  (match prev with
   | none => true
   | some p => !isWordChar p) &&
  (match l.drop kw.length with
   | [] => true
   | d :: _ => !isWordChar d)

def kwScan (prev : Option Char) : List Char → Bool
  | [] => false
  | l@(c :: cs) => (manifestKws.any fun kw => kwAt prev kw.toList l) || kwScan (some c) cs

/-- Whether a fenced block qualifies as a patch candidate. -/
def hasManifestKeyword (l : List Char) : Bool := kwScan none l

/-! ### The line-oriented parsing state machine (step 4 of `run_rca`) -/

structure ParseState where
  root_cause : String
  reasoning : String
  category : String
  recommendations : List String
  patch_lines : List String
  reasoning_lines : List String
  capture_patch : Bool
  capture_recs : Bool
deriving Repr, DecidableEq

def initParseState : ParseState := ⟨"", "", "", [], [], [], false, false⟩

/-- The category-label mapping of the parse loop, applied to the capitalized
category text (the substring tests are case-sensitive, so they see the
capitalized text exactly as the Python code does). -/
def categorize (cat : String) : String :=
  if containsStr cat "network" then "Network Issue"
  else if containsStr cat "image" then "Image Issue"
  else if containsStr cat "resource" then "Resource Pressure"
  else if containsStr cat "application" then "Application Failure"
  else if containsStr cat "probe" then "Health Probe Failure"
  else cat

/-- One iteration of `for raw_line in text.splitlines()` (dspy_helper.py
lines 116-164). -/
def parseLine (st : ParseState) (raw : String) : ParseState :=
  let line := pyStripS raw
  let low := lowerS line
  if line = "" then st
  else if startsWithS low "root cause:" then
    { st with root_cause := pyStripS (afterFirstColonS line),
              capture_patch := false, capture_recs := false }
  else if startsWithS low "rca category:" || startsWithS low "category:" then
    { st with category := categorize (pyCapitalize (pyStripS (afterFirstColonS line))) }
  else if startsWithS low "reasoning:" then
    let r := pyStripS (afterFirstColonS line)
    { st with reasoning := r, reasoning_lines := st.reasoning_lines ++ [r],
              capture_patch := false, capture_recs := false }
  else if startsWithS low "recommendations:" then
    { st with capture_recs := true, capture_patch := false }
  else if startsWithS low "patch:" || startsWithS low "suggested manifest patch:" then
    { st with capture_patch := true, capture_recs := false }
  else if st.capture_recs && startsWithS line "- " then
    let rec0 := pyStripS ((line.toList.drop 2).asString)
    if rec0 ≠ "" && !(startsWithS (lowerS rec0) "name:") then
      { st with recommendations := st.recommendations ++ [rec0] }
    else st
  else if st.capture_patch then
    { st with patch_lines := st.patch_lines ++ [line] }
  else
    { st with reasoning_lines := st.reasoning_lines ++ [line] }

/-- `text.splitlines()` (newline = `'\n'`; a trailing empty line produced by
the model is skipped by the `if not line: continue` of the loop). -/
def pyLines (s : String) : List String := (splitLinesL s.toList).map List.asString

/-- The structured fields `run_rca` returns. -/
structure RCAFields where
  root_cause : String
  reasoning : String
  recommendations : List String
  patch_yaml : String
  category : String
deriving Repr, DecidableEq

/-- Steps 3-7 of `run_rca` (parse loop, regex fallbacks, patch extraction
and cleanup, category heuristics), as a function of the raw backend text. -/
def parseRCA (text : String) : RCAFields :=
  let st := (pyLines text).foldl parseLine initParseState
  let root_cause :=
    if st.root_cause = "" then
      match rcRegexFallback text.toList with
      | some c => c.asString
      | none => ""
    else st.root_cause
  let reasoning :=
    if st.reasoning = "" then
      match reasoningRegexFallback text.toList with
      | some c => c.asString
      | none => pyStripS (String.intercalate "\n" st.reasoning_lines)
    else st.reasoning
  let recommendations :=
    if st.recommendations = [] then
      match ((pyFindAllDash text.toList).map (fun c => pyStripS c.asString)).filter
          (fun r => r ≠ "") with
      | [] => ["No actionable recommendations found."]
      | l => l
    else st.recommendations
  let fenceCands := ((findFenceBlocks text.toList).filter hasManifestKeyword).map
    (fun b => (pyStripList b).asString)
  let patch_lines := st.patch_lines ++ fenceCands
  let combined := String.intercalate "\n\n" (patch_lines.filter (fun p => pyStripS p ≠ ""))
  let patch_yaml := cleanupPatchS combined
  let category :=
    if st.category = "" then
      let combinedText := lowerS (root_cause ++ " " ++ reasoning)
      if ["imagepull", "imagepullbackoff", "errimagepull", "image not found",
          "failed to pull"].any (fun k => containsStr combinedText k) then "Image Issue"
      else if ["probe", "readiness", "liveness"].any
          (fun k => containsStr combinedText k) then "Health Probe Failure"
      else if ["memory", "oom", "pressure", "oomkilled", "out of memory"].any
          (fun k => containsStr combinedText k) then "Resource Pressure"
      else if ["dns", "connection", "timeout"].any
          (fun k => containsStr combinedText k) then "Network Issue"
      else "General Anomaly"
    else st.category
  { root_cause := root_cause, reasoning := reasoning,
    recommendations := recommendations, patch_yaml := patch_yaml,
    category := category }

/-- The smart-retry trigger (dspy_helper.py lines 233-237): root cause
contains "not identified" (case-insensitively) or some recommendation
contains "no actionable". -/
def retryNeeded (f : RCAFields) : Bool :=
  containsStr (lowerS f.root_cause) "not identified" ||
  f.recommendations.any (fun r => containsStr (lowerS r) "no actionable")

/-- `re.search(r"Root\s*Cause\s*:\s*(.*?)(?:\n|$)", retry_text,
re.IGNORECASE)`: after the label, the greedy `\s*` skips whitespace
(including newlines) and the capture is the rest of that line. -/
def retryRootCapture (retry_text : String) : Option String :=
  (searchFrom matchRootCauseLabel retry_text.toList).map
    (fun r => ((r.dropWhile isPyWs).takeWhile (fun c => c ≠ '\n')).asString)

/-- `recs = re.findall(r"-\s+(.*)", retry_text)` of the retry block. -/
def retryRecsRaw (retry_text : String) : List (List Char) := pyFindAllDash retry_text.toList

/-- `[r.strip() for r in recs if r.strip()]` of the retry block. -/
def retryRecs (retry_text : String) : List String :=
  ((retryRecsRaw retry_text).map (fun c => pyStripS c.asString)).filter (fun r => r ≠ "")

/-- The body of the smart retry (dspy_helper.py lines 239-261), as a
function of the secondary backend's response: `if rc_match:` overwrites the
root cause with the stripped capture, `if recs:` overwrites the
recommendations with the stripped non-empty captures, and the explicit
sentinels fill whichever field is empty afterwards. -/
def applyRetry (f : RCAFields) (retry_text : String) : RCAFields :=
  let root1 :=
    match retryRootCapture retry_text with
    | some c => pyStripS c
    | none => f.root_cause
  let recs1 :=
    if retryRecsRaw retry_text = [] then f.recommendations else retryRecs retry_text
  let root2 := if root1 = "" then "Root cause could not be inferred even after retry." else root1
  let recs2 := if recs1 = [] then ["Manual investigation recommended."] else recs1
  { f with root_cause := root2, recommendations := recs2 }

/-- Step 9 of `run_rca`: final validation sentinels. -/
def finalValidate (f : RCAFields) : RCAFields :=
  { f with
    root_cause := if f.root_cause = "" then "Root cause not identified." else f.root_cause,
    reasoning := if f.reasoning = "" then "No reasoning extracted from RCA output." else f.reasoning }

/-- `InfraRCAHelper.run_rca` as a function of the primary response `text`
and the retry response `retry_text`; the boolean records whether the single
smart-retry call to the secondary backend was issued. -/
def run_rca (text retry_text : String) : RCAFields × Bool :=
  let f := parseRCA text
  let b := retryNeeded f
  (finalValidate (if b then applyRetry f retry_text else f), b)

-- differential checks of run_rca against the source behaviour
set_option maxRecDepth 40000 in
example :
    run_rca "Root Cause: Unknown\n" "" =
      ({ root_cause := "Unknown", reasoning := "No reasoning extracted from RCA output.",
         recommendations := ["No actionable recommendations found."], patch_yaml := "# none",
         category := "General Anomaly" }, true) := by decide
set_option maxRecDepth 40000 in
example :
    run_rca "RCA Category: Weird\nRoot Cause: a cause here\nReasoning: because of reasons\nRecommendations:\n- Do something" "" =
      ({ root_cause := "a cause here", reasoning := "because of reasons",
         recommendations := ["Do something"], patch_yaml := "# none",
         category := "Weird" }, false) := by decide
set_option maxRecDepth 40000 in
example :
    run_rca "Root Cause: Image tag missing\nRCA Category: Image\nReasoning: bad tag\nRecommendations:\n- Fix the image tag\n- no actionable items beyond this" "Root Cause: registry outage\n- push the tag\n- retry the deploy" =
      ({ root_cause := "registry outage", reasoning := "bad tag",
         recommendations := ["push the tag", "retry the deploy"], patch_yaml := "# none",
         category := "Image" }, true) := by decide
set_option maxRecDepth 40000 in
example :
    run_rca "garbage text with no labels" "" =
      ({ root_cause := "Root cause could not be inferred even after retry.", reasoning := "garbage text with no labels",
         recommendations := ["No actionable recommendations found."], patch_yaml := "# none",
         category := "General Anomaly" }, true) := by decide
set_option maxRecDepth 40000 in
example :
    run_rca "ROOT   CAUSE : pod OOM\nstray line\nPatch:\n```yaml\nspec:\n  limits: high\n```\nmore" "" =
      ({ root_cause := "pod OOM\nstray line", reasoning := "ROOT   CAUSE : pod OOM\nstray line",
         recommendations := ["No actionable recommendations found."], patch_yaml := "spec:\nlimits: high\nmore",
         category := "Resource Pressure" }, true) := by decide
set_option maxRecDepth 40000 in
example :
    run_rca "Root Cause: x not identified y\nReasoning: long enough reasoning here\nRecommendations:\n- do a thing" "no labels here" =
      ({ root_cause := "x not identified y", reasoning := "long enough reasoning here",
         recommendations := ["do a thing"], patch_yaml := "# none",
         category := "General Anomaly" }, true) := by decide
set_option maxRecDepth 40000 in
example :
    run_rca "Patch:\nspec: a\nspec: a\nRoot Cause: dup patch\nReasoning: r\nRecommendations:\n- z" "" =
      ({ root_cause := "dup patch", reasoning := "r",
         recommendations := ["z"], patch_yaml := "spec: a",
         category := "General Anomaly" }, false) := by decide
set_option maxRecDepth 40000 in
example :
    run_rca "Recommendations:\n- name: skipme\n- keep me\nRoot Cause: after recs" "" =
      ({ root_cause := "after recs", reasoning := "No reasoning extracted from RCA output.",
         recommendations := ["keep me"], patch_yaml := "# none",
         category := "General Anomaly" }, false) := by decide
set_option maxRecDepth 40000 in
example :
    run_rca "Category: some network glitch\nRoot Cause: net fail\nReasoning: rrrr" "" =
      ({ root_cause := "net fail", reasoning := "rrrr",
         recommendations := ["No actionable recommendations found."], patch_yaml := "# none",
         category := "Network Issue" }, true) := by decide
set_option maxRecDepth 40000 in
example :
    run_rca "```YAML\nmetadata: here\n```\nRoot Cause: fenced\nReasoning: fonly" "" =
      ({ root_cause := "fenced", reasoning := "fonly",
         recommendations := ["No actionable recommendations found."], patch_yaml := "metadata: here",
         category := "General Anomaly" }, true) := by decide

/-! ## Helper lemmas -/

/-- A string append with a non-empty left component is non-empty. -/
theorem strAppend_ne_empty_left (a b : String) (ha : a ≠ "") : a ++ b ≠ "" := by
  intro h
  apply ha
  have h2 := congrArg String.data h
  simp only [String.data_append] at h2
  rcases List.append_eq_nil.mp h2 with ⟨h3, -⟩
  cases a
  simp_all

/-! ## C9 — empty bundle yields absent -/

/-- C9: for every resource whose collected bundle fields are all empty or
whitespace after trimming, `analyze_resource` returns `none` (absent, not an
error); the result is independent of the metrics summary and of the
reasoning backend's diagnosis, which in the shallow embedding expresses
that neither the metrics summarizer, nor signal extraction, nor the
reasoning backend is consulted on the early-return path. -/
theorem analyze_empty_bundle_absent (kind name : String) (ns : Option String)
    (data : Bundle) (m : String) (dg : Diag)
    (h : bundleAllBlank data = true) :
    analyze_resource kind name ns data m dg = none := by
  simp [analyze_resource, h]

theorem analyze_empty_bundle_absent_witness :
    bundleAllBlank ⟨"", "  ", "\n", "\t "⟩ = true ∧
    analyze_resource "Pod" "p" (some "prod") ⟨"", "  ", "\n", "\t "⟩ "cpu 1m" emptyDiag = none :=
  ⟨by decide,
   analyze_empty_bundle_absent "Pod" "p" (some "prod") ⟨"", "  ", "\n", "\t "⟩ "cpu 1m" emptyDiag
     (by decide)⟩

/-! ## C3 — well-formedness of every non-absent AnalysisResult -/

/-- C3: every non-absent result of `analyze_resource` has a non-empty root
cause, a non-empty reasoning, and at least one recommendation — for every
possible diagnosis, including the empty one produced when the reasoning
call raises. -/
theorem analyze_result_well_formed (kind name : String) (ns : Option String)
    (data : Bundle) (m : String) (dg : Diag) (r : AnalysisResult)
    (h : analyze_resource kind name ns data m dg = some r) :
    r.root_cause ≠ "" ∧ r.reasoning ≠ "" ∧ 1 ≤ r.recommendations.length := by
  unfold analyze_resource at h
  split at h
  · exact absurd h (by simp)
  · simp only [Option.some.injEq] at h
    subst h
    refine ⟨?_, ?_, ?_⟩
    · show (if _ then "Root cause not identifiable" else pyStripS dg.root_cause) ≠ ""
      split
      · decide
      · next hcond =>
        push_neg at hcond
        exact hcond.1
    · show (if _ then _ else pyStripS dg.reasoning) ≠ ""
      split
      · intro hEq
        have h2 := congrArg String.length hEq
        simp only [String.length_append] at h2
        have h3 : ("No sufficient diagnostic context for ").length = 37 := by decide
        have h0 : ("" : String).length = 0 := by decide
        rw [h3, h0] at h2
        omega
      · next hcond =>
        push_neg at hcond
        exact hcond.1
    · show 1 ≤ (if dg.recommendations = [] then _ else dg.recommendations).length
      split
      · simp
      · next hne => exact List.length_pos.mpr hne

def c3SampleBundle : Bundle := ⟨"CrashLoopBackOff", "", "", ""⟩

def c3SampleResult : AnalysisResult :=
  (analyze_resource "Pod" "p" none c3SampleBundle "m" emptyDiag).getD
    ⟨"", "", none, "", "", [], "", "", ""⟩

theorem analyze_result_well_formed_witness :
    c3SampleResult.root_cause ≠ "" ∧ c3SampleResult.reasoning ≠ "" ∧
    1 ≤ c3SampleResult.recommendations.length :=
  analyze_result_well_formed "Pod" "p" none c3SampleBundle "m" emptyDiag c3SampleResult
    (by decide)

/-! ## C4 — cooldown check-and-mark -/

/-- C4: `should_skip_rca` is a check-and-mark operation: when the key was
last marked less than `RCA_COOLDOWN = 300` seconds ago it returns `true` and
leaves the cache unchanged; otherwise it records the current time as a side
effect of the check itself and returns `false`.  Consequently two calls
within the window return `false` then `true`, and a call after the window
elapses returns `false` again. -/
theorem cooldown_should_skip
    (cache : List (String × Nat)) (kind name ns : String) (t0 t1 t2 : Nat)
    (h0 : ∀ t, lookupTime cache (cacheKey kind name ns) = some t → RCA_COOLDOWN ≤ t0 - t)
    (h1 : t1 - t0 < RCA_COOLDOWN) (h2 : RCA_COOLDOWN ≤ t2 - t0) :
    (∀ (c : List (String × Nat)) (now t : Nat),
        lookupTime c (cacheKey kind name ns) = some t → now - t < RCA_COOLDOWN →
        should_skip_rca c kind name ns now = (true, c)) ∧
    (∀ (c : List (String × Nat)) (now : Nat),
        (∀ t, lookupTime c (cacheKey kind name ns) = some t → RCA_COOLDOWN ≤ now - t) →
        should_skip_rca c kind name ns now = (false, (cacheKey kind name ns, now) :: c)) ∧
    should_skip_rca cache kind name ns t0 = (false, (cacheKey kind name ns, t0) :: cache) ∧
    should_skip_rca ((cacheKey kind name ns, t0) :: cache) kind name ns t1
      = (true, (cacheKey kind name ns, t0) :: cache) ∧
    (should_skip_rca ((cacheKey kind name ns, t0) :: cache) kind name ns t2).fst = false := by
  have mark : ∀ (c : List (String × Nat)) (now : Nat),
      (∀ t, lookupTime c (cacheKey kind name ns) = some t → RCA_COOLDOWN ≤ now - t) →
      should_skip_rca c kind name ns now = (false, (cacheKey kind name ns, now) :: c) := by
    intro c now h
    unfold should_skip_rca
    dsimp only
    cases hl : lookupTime c (cacheKey kind name ns) with
    | none => rfl
    | some t =>
      have := h t hl
      simp [Nat.not_lt.mpr this]
  have skip : ∀ (c : List (String × Nat)) (now t : Nat),
      lookupTime c (cacheKey kind name ns) = some t → now - t < RCA_COOLDOWN →
      should_skip_rca c kind name ns now = (true, c) := by
    intro c now t hl hlt
    unfold should_skip_rca
    dsimp only
    rw [hl]
    simp [hlt]
  have head : lookupTime ((cacheKey kind name ns, t0) :: cache) (cacheKey kind name ns)
      = some t0 := by simp [lookupTime]
  refine ⟨skip, mark, mark cache t0 h0, skip _ t1 t0 head h1, ?_⟩
  have h5 := mark ((cacheKey kind name ns, t0) :: cache) t2 ?_
  · rw [h5]
  · intro t ht
    rw [head] at ht
    cases ht
    exact h2

theorem cooldown_should_skip_witness :
    should_skip_rca [] "Pod" "web" "prod" 1000 = (false, [("Pod:web:prod", 1000)]) ∧
    should_skip_rca [("Pod:web:prod", 1000)] "Pod" "web" "prod" 1100
      = (true, [("Pod:web:prod", 1000)]) ∧
    (should_skip_rca [("Pod:web:prod", 1000)] "Pod" "web" "prod" 1400).fst = false := by
  have h := cooldown_should_skip [] "Pod" "web" "prod" 1000 1100 1400
    (by intro t ht; simp [lookupTime] at ht) (by decide) (by decide)
  exact ⟨h.2.2.1, h.2.2.2.1, h.2.2.2.2⟩

/-! ## C6 — per-task failures are isolated in the aggregate -/

/-- C6: in the aggregation of gathered scanner tasks, an exception raised
inside one per-resource task is converted into an inline
`# ⚠️ Analyzer error: ...` fragment, while the report of every sibling task
that returned a result still appears; aggregation (and hence the scan,
which is a total function of the outcomes) completes for every outcome
list. -/
theorem scanner_isolates_failures (outs : List TaskOutcome) :
    (∀ m, TaskOutcome.exn m ∈ outs →
      ("# ⚠️ Analyzer error: " ++ m) ∈ collectMarkdowns outs) ∧
    (∀ r : AnalysisResult, TaskOutcome.ok (some r) ∈ outs →
      r.markdown ∈ collectMarkdowns outs) := by
  induction outs with
  | nil => simp
  | cons o rest ih =>
    obtain ⟨ih1, ih2⟩ := ih
    constructor
    · intro m hm
      rcases List.mem_cons.mp hm with h | h
      · subst h
        simp [collectMarkdowns]
      · have := ih1 m h
        cases o with
        | exn m2 => simp [collectMarkdowns, this]
        | ok r0 => cases r0 <;> simp [collectMarkdowns, this]
    · intro r hr
      rcases List.mem_cons.mp hr with h | h
      · subst h
        simp [collectMarkdowns]
      · have := ih2 r h
        cases o with
        | exn m2 => simp [collectMarkdowns, this]
        | ok r0 => cases r0 <;> simp [collectMarkdowns, this]

def c6DemoResult (i : Nat) : AnalysisResult :=
  ⟨"Pod", "p" ++ toString i, none, "rc", "rs", ["r"], "", "Infra",
   "report-" ++ toString i⟩

def c6DemoOuts : List TaskOutcome :=
  [.ok (some (c6DemoResult 1)), .ok (some (c6DemoResult 2)), .exn "boom",
   .ok (some (c6DemoResult 3)), .ok (some (c6DemoResult 4)), .ok (some (c6DemoResult 5))]

theorem scanner_isolates_failures_witness :
    ("# ⚠️ Analyzer error: boom") ∈ collectMarkdowns c6DemoOuts ∧
    "report-1" ∈ collectMarkdowns c6DemoOuts ∧
    "report-5" ∈ collectMarkdowns c6DemoOuts :=
  ⟨(scanner_isolates_failures c6DemoOuts).1 "boom" (by decide),
   (scanner_isolates_failures c6DemoOuts).2 (c6DemoResult 1) (by decide),
   (scanner_isolates_failures c6DemoOuts).2 (c6DemoResult 5) (by decide)⟩

/-! ## C10 — empty namespace enumeration short-circuits the scan -/

/-- C10: if namespace enumeration yields nothing (for instance when every
existing namespace is on the system deny-list), `analyze_cluster` returns
an empty report immediately: no resource is enumerated at all — the node
lister is never consulted, reflected here by the result being the constant
empty scan for every `listNode`/`listRes`/`runTask` — and no file is
written. -/
theorem scan_empty_namespaces (allNamespaces : List String) (excludeSystem : Bool)
    (listNode : List String) (listRes : String → String → List String)
    (runTask : String → String → Option String → TaskOutcome) (kinds : List String)
    (h : list_namespaces allNamespaces excludeSystem = []) :
    analyze_cluster allNamespaces excludeSystem listNode listRes runTask kinds
      = { report := "", fileWritten := false, resources := [] } := by
  unfold analyze_cluster
  rw [h]
  simp

theorem scan_empty_namespaces_witness :
    list_namespaces ["kube-system", "monitoring", "kube-public"] true = [] ∧
    analyze_cluster ["kube-system", "monitoring", "kube-public"] true ["node-1"]
      (fun _ _ => ["pod-a"]) (fun _ _ _ => .exn "never called") defaultKinds
      = { report := "", fileWritten := false, resources := [] } :=
  ⟨by decide,
   scan_empty_namespaces ["kube-system", "monitoring", "kube-public"] true ["node-1"]
     (fun _ _ => ["pod-a"]) (fun _ _ _ => .exn "never called") defaultKinds (by decide)⟩

/-! ## C7 — signal extractor determinism and the CrashLoop/OOM case -/

/-- The pattern keys other than `crashloopbackoff` and `oomkilled`. -/
def otherSignalKeys : List String :=
  ["back-off restarting", "imagepullbackoff", "failed to pull image", "errimagepull",
   "memorypressure", "diskpressure", "failedscheduling", "unschedulable", "evicted",
   "node not ready", "dns", "readinessprobe failed", "livenessprobe failed",
   "no such host", "progressdeadlineexceeded", "unavailable", "connection refused",
   "timeout", "pod has unbound immediate persistentvolumeclaims"]

/-- C7: `extract_signals` is a pure deterministic function of the
concatenated lowered bundle text (bundles with the same text always yield
the same output), and on every bundle whose lowered text contains
`crashloopbackoff` and `oomkilled` but no other key of the fixed pattern
table, the result is exactly the sorted pair `CrashLoopBackOff, OOMKilled`. -/
theorem extract_signals_crash_oom (d : Bundle)
    (h1 : containsStr (signalText d) "crashloopbackoff" = true)
    (h2 : containsStr (signalText d) "oomkilled" = true)
    (ho : ∀ k ∈ otherSignalKeys, containsStr (signalText d) k = false) :
    extract_signals d = "CrashLoopBackOff, OOMKilled" ∧
    ∀ d2 : Bundle, signalText d2 = signalText d → extract_signals d2 = extract_signals d := by
  refine ⟨?_, fun d2 hd => by unfold extract_signals; rw [hd]⟩
  have e1 := ho "back-off restarting" (by decide)
  have e2 := ho "imagepullbackoff" (by decide)
  have e3 := ho "failed to pull image" (by decide)
  have e4 := ho "errimagepull" (by decide)
  have e5 := ho "memorypressure" (by decide)
  have e6 := ho "diskpressure" (by decide)
  have e7 := ho "failedscheduling" (by decide)
  have e8 := ho "unschedulable" (by decide)
  have e9 := ho "evicted" (by decide)
  have e10 := ho "node not ready" (by decide)
  have e11 := ho "dns" (by decide)
  have e12 := ho "readinessprobe failed" (by decide)
  have e13 := ho "livenessprobe failed" (by decide)
  have e14 := ho "no such host" (by decide)
  have e15 := ho "progressdeadlineexceeded" (by decide)
  have e16 := ho "unavailable" (by decide)
  have e17 := ho "connection refused" (by decide)
  have e18 := ho "timeout" (by decide)
  have e19 := ho "pod has unbound immediate persistentvolumeclaims" (by decide)
  have hm : matchedSignals (signalText d) = ["CrashLoopBackOff", "OOMKilled"] := by
    simp [matchedSignals, signalPatterns, List.filter_cons, h1, h2,
      e1, e2, e3, e4, e5, e6, e7, e8, e9, e10, e11, e12, e13, e14, e15, e16, e17, e18, e19]
  unfold extract_signals extract_from_text
  rw [hm]
  rfl

theorem extract_signals_crash_oom_witness :
    extract_signals ⟨"CrashLoopBackOff observed", "", "OOMKilled", ""⟩
      = "CrashLoopBackOff, OOMKilled" :=
  (extract_signals_crash_oom ⟨"CrashLoopBackOff observed", "", "OOMKilled", ""⟩
    (by decide) (by decide) (by decide)).1

/-! ## C1 — patch suppression for node/service/persistentvolume/pvc -/

def c1Bundle : Bundle := ⟨"NodeMemoryPressure condition seen", "", "", ""⟩

def c1Diag : Diag :=
  { root_cause := "Node memory exhausted",
    reasoning := "The node ran out of memory because of sustained heavy usage.",
    recommendations := ["Add memory to the node"],
    patch_yaml := "spec:\n  taints: []",
    category := "Infra" }

/-- C1 counterexample: for kind `node`, when the reasoning backend returns a
substantive patch (non-empty, not a `none` sentinel, at least five
characters), `analyze_resource` keeps it verbatim — the patch field is not a
sentinel and the rendered report does contain a patch section.  The
kind-aware suppression of agent.py lines 136-141 only runs in the branch
where the backend patch is already trivial. -/
theorem analyze_node_patch_counterexample :
    (analyze_resource "node" "n1" none c1Bundle "metrics" c1Diag).map
      (fun r => (r.patch_yaml, containsStr r.markdown "Suggested Manifest Patch"))
      = some ("spec:\n  taints: []", true) := by decide

/-- C1 amended: for kinds in `{node, service, persistentvolume, pvc}`
(case-insensitively), *whenever the backend patch is trivial* — empty after
stripping, a `# none`/`none` sentinel, or shorter than five characters — the
patch field of the result is the empty sentinel and the rendered report is
exactly the base report without any patch section.  (A substantive backend
patch is passed through even for these kinds, as the counterexample shows.) -/
theorem analyze_node_patch_suppressed (kind name : String) (ns : Option String)
    (data : Bundle) (m : String) (dg : Diag) (r : AnalysisResult)
    (hk : lowerS kind ∈ ["node", "service", "persistentvolume", "pvc"])
    (ht : pyStripS dg.patch_yaml = "" ∨ lowerS (pyStripS dg.patch_yaml) ∈ ["# none", "none"] ∨
      (pyStripS (pyStripS dg.patch_yaml)).length < 5)
    (h : analyze_resource kind name ns data m dg = some r) :
    r.patch_yaml = "" ∧
    r.markdown = String.intercalate "\n"
      (mdBaseLines kind name ns r.root_cause r.reasoning r.recommendations r.category) := by
  unfold analyze_resource at h
  split at h
  · exact absurd h (by simp)
  · simp only [Option.some.injEq] at h
    rw [if_pos ht, if_pos hk] at h
    subst h
    refine ⟨rfl, ?_⟩
    show build_markdown_generic _ _ _ _ _ _ "" _ = _
    unfold build_markdown_generic
    have : patchSectionCond "" = false := by decide
    rw [this]
    simp

def c1TrivialDiag : Diag :=
  { root_cause := "Node memory exhausted",
    reasoning := "The node ran out of memory because of sustained heavy usage.",
    recommendations := ["Add memory to the node"],
    patch_yaml := "# none",
    category := "Infra" }

def c1WitnessResult : AnalysisResult :=
  (analyze_resource "Node" "n1" none c1Bundle "metrics" c1TrivialDiag).getD
    ⟨"", "", none, "", "", [], "", "", ""⟩

theorem analyze_node_patch_suppressed_witness :
    c1WitnessResult.patch_yaml = "" ∧
    c1WitnessResult.markdown = String.intercalate "\n"
      (mdBaseLines "Node" "n1" none c1WitnessResult.root_cause c1WitnessResult.reasoning
        c1WitnessResult.recommendations c1WitnessResult.category) :=
  analyze_node_patch_suppressed "Node" "n1" none c1Bundle "metrics" c1TrivialDiag
    c1WitnessResult (by decide) (by decide) (by decide)

/-! ## C2 — diagnosis category and the fixed label set -/

/-- The fixed label set of the specification. -/
def categoryLabels : List String :=
  ["Infra", "Config", "Application Failure", "Network Issue", "Image Issue",
   "Resource Pressure", "Health Probe Failure", "General Anomaly"]

/-- Whether a raw response line is a category line of the parse loop. -/
def isCategoryLine (raw : String) : Bool :=
  startsWithS (lowerS (pyStripS raw)) "rca category:" ||
  startsWithS (lowerS (pyStripS raw)) "category:"

/-- C2 counterexample: for the backend text `RCA Category: Weird ...` the
category produced by `run_rca` is the free text `Weird`, which is not an
element of the fixed label set — the parse loop keeps any capitalized
category text that matches none of its five substring rules (and even the
documented labels themselves escape the mapping, because the substring
tests are case-sensitive against the capitalized text). -/
theorem rca_category_counterexample :
    (run_rca
      "RCA Category: Weird\nRoot Cause: a cause here\nReasoning: because of reasons\nRecommendations:\n- Do something"
      "").fst.category = "Weird" ∧ "Weird" ∉ categoryLabels := by decide

/-- C2 amended: whenever the backend text contains no category-labelled line
(no line whose stripped, lowered form starts with `rca category:` or
`category:`), the category of the diagnosis produced by `run_rca` is an
element of the fixed label set — the keyword heuristics of step 7 only ever
produce `Image Issue`, `Health Probe Failure`, `Resource Pressure`,
`Network Issue` or `General Anomaly`.  (When a category line is present,
its capitalized free text is kept verbatim unless one of the five
substring rules fires, so the category can escape the label set, as the
counterexample shows.) -/
theorem rca_category_in_labels (text retry : String)
    (h : ∀ raw ∈ pyLines text, isCategoryLine raw = false) :
    (run_rca text retry).fst.category ∈ categoryLabels := by
  have key : ∀ (ls : List String) (st : ParseState), (∀ raw ∈ ls, isCategoryLine raw = false) →
      st.category = "" → (ls.foldl parseLine st).category = "" := by
    intro ls
    induction ls with
    | nil => intro st _ h0; exact h0
    | cons a ls ih =>
      intro st hall h0
      simp only [List.foldl_cons]
      apply ih _ (fun raw hr => hall raw (List.mem_cons_of_mem _ hr))
      have ha := hall a (List.mem_cons_self _ _)
      unfold isCategoryLine at ha
      unfold parseLine
      dsimp only
      simp only [ha, Bool.false_eq_true, if_false]
      split
      · exact h0
      split
      · simp [h0]
      split
      · simp [h0]
      split
      · simp [h0]
      split
      · simp [h0]
      split
      · split <;> simp [h0]
      split
      · simp [h0]
      · simp [h0]
  have hpres : (run_rca text retry).fst.category = (parseRCA text).category := by
    have h1 : ∀ X : RCAFields, (finalValidate X).category = X.category := fun _ => rfl
    rw [show (run_rca text retry).fst
        = finalValidate (if retryNeeded (parseRCA text) = true then
            applyRetry (parseRCA text) retry else parseRCA text) from rfl, h1]
    split
    · rfl
    · rfl
  rw [hpres]
  have hst : ((pyLines text).foldl parseLine initParseState).category = "" :=
    key _ initParseState h rfl
  unfold parseRCA
  dsimp only
  rw [if_pos hst]
  repeat' split
  all_goals decide

theorem rca_category_in_labels_witness :
    (run_rca "Root Cause: something broke badly\nReasoning: it failed\nRecommendations:\n- fix it"
      "").fst.category ∈ categoryLabels :=
  rca_category_in_labels
    "Root Cause: something broke badly\nReasoning: it failed\nRecommendations:\n- fix it" ""
    (by decide)

/-! ## C5 — the smart retry -/

def c5Text : String :=
  "Root Cause: Image tag missing\nRCA Category: Image\nReasoning: bad tag\nRecommendations:\n- Fix the image tag\n- no actionable items beyond this"

def c5Retry : String := "Root Cause: registry outage\n- push the tag\n- retry the deploy"

/-- C5 counterexample: the retry fires although the parsed root cause does
not indicate non-identification and *not every* recommendation is a
"no actionable" placeholder — one genuine recommendation (`Fix the image
tag`) is present and a single placeholder-containing one suffices, because
the code tests `any(...)`, not "every". -/
theorem rca_retry_counterexample :
    (run_rca c5Text "").snd = true ∧
    containsStr (lowerS (parseRCA c5Text).root_cause) "not identified" = false ∧
    ((parseRCA c5Text).recommendations.all
      (fun r => containsStr (lowerS r) "no actionable")) = false := by decide

/-- C5 amended: `run_rca` issues its single additional call to the secondary
backend if and only if the parsed root cause contains `not identified`
(case-insensitively) or *some* recommendation contains `no actionable`;
when the retry fires, a root-cause line found in the retry response
overwrites the old value (if its stripped capture is non-empty), while with
no root-cause line the old non-empty value is kept — the explicit
"could not be inferred" / "manual investigation" sentinels are installed
only for fields that are empty after the retry; without the retry the
parsed fields pass through final validation unchanged. -/
theorem rca_smart_retry (text retry : String) :
    ((run_rca text retry).snd = true ↔
      (containsStr (lowerS (parseRCA text).root_cause) "not identified" = true ∨
       ∃ r ∈ (parseRCA text).recommendations, containsStr (lowerS r) "no actionable" = true)) ∧
    (∀ c, (run_rca text retry).snd = true → retryRootCapture retry = some c →
      pyStripS c ≠ "" → (run_rca text retry).fst.root_cause = pyStripS c) ∧
    ((run_rca text retry).snd = true → retryRootCapture retry = none →
      (parseRCA text).root_cause ≠ "" →
      (run_rca text retry).fst.root_cause = (parseRCA text).root_cause) ∧
    ((run_rca text retry).snd = true → retryRootCapture retry = none →
      (parseRCA text).root_cause = "" →
      (run_rca text retry).fst.root_cause = "Root cause could not be inferred even after retry.") ∧
    ((run_rca text retry).snd = true → retryRecsRaw retry ≠ [] → retryRecs retry ≠ [] →
      (run_rca text retry).fst.recommendations = retryRecs retry) ∧
    ((run_rca text retry).snd = true → retryRecsRaw retry ≠ [] → retryRecs retry = [] →
      (run_rca text retry).fst.recommendations = ["Manual investigation recommended."]) ∧
    ((run_rca text retry).snd = true → retryRecsRaw retry = [] →
      (parseRCA text).recommendations ≠ [] →
      (run_rca text retry).fst.recommendations = (parseRCA text).recommendations) ∧
    ((run_rca text retry).snd = false →
      (run_rca text retry).fst = finalValidate (parseRCA text)) := by
  have hsnd : (run_rca text retry).snd = retryNeeded (parseRCA text) := rfl
  have hfst : ∀ hb : retryNeeded (parseRCA text) = true,
      (run_rca text retry).fst = finalValidate (applyRetry (parseRCA text) retry) := by
    intro hb
    show finalValidate (if retryNeeded (parseRCA text) = true then _ else _) = _
    rw [if_pos hb]
  refine ⟨?_, ?_, ?_, ?_, ?_, ?_, ?_, ?_⟩
  · rw [hsnd]
    simp [retryNeeded, List.any_eq_true]
  · intro c hb hc hnz
    rw [hfst hb]
    unfold applyRetry finalValidate
    dsimp only
    rw [hc]
    simp [hnz]
  · intro hb hc hne
    rw [hfst hb]
    unfold applyRetry finalValidate
    dsimp only
    rw [hc]
    simp [hne]
  · intro hb hc hemp
    rw [hfst hb]
    unfold applyRetry finalValidate
    dsimp only
    rw [hc]
    simp [hemp]
  · intro hb hraw hfil
    rw [hfst hb]
    unfold applyRetry finalValidate
    dsimp only
    rw [if_neg hraw, if_neg hfil]
  · intro hb hraw hfil
    rw [hfst hb]
    unfold applyRetry finalValidate
    dsimp only
    rw [if_neg hraw, hfil]
    simp
  · intro hb hraw hne
    rw [hfst hb]
    unfold applyRetry finalValidate
    dsimp only
    rw [if_pos hraw, if_neg hne]
  · intro hb
    show finalValidate (if retryNeeded (parseRCA text) = true then _ else _) = _
    rw [hsnd] at hb
    rw [if_neg (by simp [hb])]

theorem rca_smart_retry_witness :
    (run_rca c5Text c5Retry).fst.root_cause = pyStripS "registry outage" :=
  (rca_smart_retry c5Text c5Retry).2.1 "registry outage" (by decide) (by decide) (by decide)

/-! ## C8 — idempotence of the patch cleanup -/

def c8Input : String := "z spec: a\n  spec: a\nw\nspec: b"

/-- C8 counterexample: the cleanup is not idempotent.  On this input the
first application selects the longest of two `spec:` blocks,
`spec: a\n  spec: a`, whose two lines strip to the same text; the second
application's line deduplication then removes the indented line, giving
`spec: a` — a different result. -/
theorem cleanup_not_idempotent :
    cleanupPatchS c8Input = "spec: a\n  spec: a" ∧
    cleanupPatchS (cleanupPatchS c8Input) = "spec: a" ∧
    cleanupPatchS (cleanupPatchS c8Input) ≠ cleanupPatchS c8Input := by decide

/-! ### Triple-backtick-freedom and the fence substitutions -/

/-- No three consecutive backticks occur in the list. -/
def TripleFree (l : List Char) : Prop :=
  ∀ s t : List Char, l ≠ s ++ btick :: btick :: btick :: t

theorem tripleFree_of_short (l : List Char) (h : l.length < 3) : TripleFree l := by
  intro s t he
  have := congrArg List.length he
  simp [List.length_append] at this
  omega

theorem TripleFree.tail (c : Char) (l : List Char) (h : TripleFree (c :: l)) :
    TripleFree l := by
  intro s t he
  exact h (c :: s) t (by simp [he])

theorem TripleFree.cons (c : Char) (l : List Char) (hc : c ≠ btick)
    (h : TripleFree l) : TripleFree (c :: l) := by
  intro s t he
  cases s with
  | nil => simp at he; exact hc he.1
  | cons a s' =>
    simp at he
    exact h s' t he.2

theorem TripleFree.cons_btick (l : List Char)
    (hs : ∀ t : List Char, l ≠ btick :: btick :: t)
    (h : TripleFree l) : TripleFree (btick :: l) := by
  intro s t he
  cases s with
  | nil => simp at he; exact hs t he
  | cons a s' =>
    simp at he
    exact h s' t he.2

theorem TripleFree.infix (l i : List Char) (h : TripleFree l) (hi : i <:+: l) :
    TripleFree i := by
  obtain ⟨s0, t0, rfl⟩ := hi
  intro s t he
  subst he
  exact h (s0 ++ s) (t ++ t0) (by simp)

theorem TripleFree.append_repl (n : Nat) (l : List Char)
    (h : TripleFree (List.replicate n btick ++ l)) : n < 3 := by
  by_contra hn
  push_neg at hn
  exact h [] (List.replicate (n - 3) btick ++ l) (by
    rw [show n = 3 + (n - 3) by omega, List.replicate_add]
    simp)

theorem tripleFree_repl_le2 (n : Nat) (hn : n < 3) :
    TripleFree (List.replicate n btick) := by
  apply tripleFree_of_short
  simpa using hn

/-- Key building block: a short backtick run followed by a non-backtick
head is triple-free when the tail is. -/
theorem tripleFree_run_cons (n : Nat) (hn : n < 3) (c : Char) (hc : c ≠ btick)
    (X : List Char) (hX : TripleFree X) :
    TripleFree (List.replicate n btick ++ c :: X) := by
  have hcX : TripleFree (c :: X) := TripleFree.cons c X hc hX
  match n, hn with
  | 0, _ => simpa using hcX
  | 1, _ =>
    show TripleFree (btick :: c :: X)
    exact TripleFree.cons_btick _ (by intro t he; simp at he; exact hc he.1) hcX
  | 2, _ =>
    show TripleFree (btick :: btick :: c :: X)
    apply TripleFree.cons_btick
    · intro t he
      simp at he
      exact hc he.1
    · exact TripleFree.cons_btick _ (by intro t he; simp at he; exact hc he.1) hcX

theorem subFenceAux_tripleFree : ∀ (l : List Char) (n : Nat), TripleFree (subFenceAux n l) := by
  intro l
  induction l with
  | nil =>
    intro n
    unfold subFenceAux
    split
    · exact tripleFree_of_short _ (by simp)
    · next h => exact tripleFree_repl_le2 n (by omega)
  | cons c cs ih =>
    intro n
    unfold subFenceAux
    split
    · exact ih (n + 1)
    · next hc =>
      split
      · exact TripleFree.cons c _ hc (ih 0)
      · next hn => exact tripleFree_run_cons n (by omega) c hc _ (ih 0)

theorem repl_btick_succ (n : Nat) (l : List Char) :
    List.replicate n btick ++ btick :: l = List.replicate (n + 1) btick ++ l := by
  rw [List.replicate_succ']
  simp

theorem suffix_tripleFree (pre l : List Char) (h : TripleFree (pre ++ l)) : TripleFree l :=
  TripleFree.infix _ _ h ⟨pre, [], by simp⟩

theorem subFenceAux_fixpoint : ∀ (l : List Char) (n : Nat),
    TripleFree (List.replicate n btick ++ l) →
    subFenceAux n l = List.replicate n btick ++ l := by
  intro l
  induction l with
  | nil =>
    intro n h
    have hn : n < 3 := TripleFree.append_repl n [] h
    unfold subFenceAux
    rw [if_neg (by omega)]
    simp
  | cons c cs ih =>
    intro n h
    unfold subFenceAux
    split
    · next hc =>
      subst hc
      rw [repl_btick_succ] at h ⊢
      exact ih (n + 1) h
    · next hc =>
      have hn : n < 3 := TripleFree.append_repl n _ h
      rw [if_neg (by omega)]
      have hcs : TripleFree cs := suffix_tripleFree (List.replicate n btick ++ [c])
        cs (by simpa using h)
      rw [ih 0 (by simpa using hcs)]
      simp

theorem subFenceYamlF_fixpoint : ∀ (fuel : Nat) (l : List Char) (n : Nat),
    l.length ≤ fuel → TripleFree (List.replicate n btick ++ l) →
    subFenceYamlF fuel n l = List.replicate n btick ++ l := by
  intro fuel
  induction fuel with
  | zero =>
    intro l n hl h
    have hnil : l = [] := List.eq_nil_of_length_eq_zero (by omega)
    subst hnil
    simp [subFenceYamlF]
  | succ fuel ih =>
    intro l n hl h
    cases l with
    | nil => simp [subFenceYamlF]
    | cons c cs =>
      unfold subFenceYamlF
      split
      · next hc =>
        subst hc
        rw [repl_btick_succ] at h ⊢
        exact ih cs (n + 1) (by simpa using Nat.le_of_succ_le_succ hl) h
      · next hc =>
        have hn : n < 3 := TripleFree.append_repl n _ h
        rw [if_neg (by rintro ⟨h3, -⟩; omega)]
        have hcs : TripleFree cs := suffix_tripleFree (List.replicate n btick ++ [c])
          cs (by simpa using h)
        rw [ih cs 0 (by simpa using Nat.le_of_succ_le_succ hl) (by simpa using hcs)]
        simp

theorem subFence_tripleFree (l : List Char) : TripleFree (subFence l) :=
  subFenceAux_tripleFree l 0

theorem subFence_eq_self (l : List Char) (h : TripleFree l) : subFence l = l := by
  have h2 := subFenceAux_fixpoint l 0 (by simpa using h)
  simpa [subFence] using h2

theorem subFenceYaml_eq_self (l : List Char) (h : TripleFree l) : subFenceYaml l = l := by
  have h2 := subFenceYamlF_fixpoint l.length l 0 le_rfl (by simpa using h)
  simpa [subFenceYaml] using h2

/-! ### Lines: split, join, and transport of triple-freedom -/

theorem splitLinesL_ne_nil (l : List Char) : splitLinesL l ≠ [] := by
  cases l with
  | nil => simp [splitLinesL]
  | cons c cs =>
    unfold splitLinesL
    split
    · simp
    · split <;> simp

theorem joinLinesL_splitLinesL (l : List Char) : joinLinesL (splitLinesL l) = l := by
  induction l with
  | nil => rfl
  | cons c cs ih =>
    unfold splitLinesL
    split
    · next hc =>
      subst hc
      cases h : splitLinesL cs with
      | nil => exact absurd h (splitLinesL_ne_nil cs)
      | cons L Ls =>
        rw [h] at ih
        show joinLinesL ([] :: L :: Ls) = '\n' :: cs
        rw [joinLinesL]
        simp [ih]
    · next hc =>
      cases h : splitLinesL cs with
      | nil => exact absurd h (splitLinesL_ne_nil cs)
      | cons L Ls =>
        rw [h] at ih
        show joinLinesL ((c :: L) :: Ls) = c :: cs
        cases Ls with
        | nil =>
          show c :: L = c :: cs
          rw [show joinLinesL [L] = L from rfl] at ih
          rw [ih]
        | cons L2 Ls2 =>
          show (c :: L) ++ '\n' :: joinLinesL (L2 :: Ls2) = c :: cs
          rw [joinLinesL] at ih
          simp [← ih]

theorem splitLinesL_no_nl (l : List Char) : ∀ x ∈ splitLinesL l, '\n' ∉ x := by
  induction l with
  | nil =>
    intro x hx
    simp [splitLinesL] at hx
    subst hx
    simp
  | cons c cs ih =>
    intro x hx
    unfold splitLinesL at hx
    split at hx
    · rcases List.mem_cons.mp hx with h1 | h1
      · subst h1; simp
      · exact ih x h1
    · next hc =>
      cases h2 : splitLinesL cs with
      | nil => exact absurd h2 (splitLinesL_ne_nil cs)
      | cons L Ls =>
        rw [h2] at hx
        rcases List.mem_cons.mp hx with h1 | h1
        · subst h1
          intro hmem
          rcases List.mem_cons.mp hmem with h3 | h3
          · exact hc h3.symm
          · exact ih L (by rw [h2]; exact List.mem_cons_self _ _) h3
        · exact ih x (by rw [h2]; exact List.mem_cons_of_mem _ h1)

theorem splitLinesL_head_prefix : ∀ (l L : List Char) (Ls : List (List Char)),
    splitLinesL l = L :: Ls → L <+: l := by
  intro l
  induction l with
  | nil =>
    intro L Ls h
    rw [show splitLinesL [] = [[]] from rfl] at h
    injection h with h1 _
    subst h1
    exact List.nil_prefix
  | cons c cs ih =>
    intro L Ls h
    unfold splitLinesL at h
    split at h
    · injection h with h1 _
      subst h1
      exact List.nil_prefix
    · next hc =>
      cases h2 : splitLinesL cs with
      | nil => exact absurd h2 (splitLinesL_ne_nil cs)
      | cons L' Ls' =>
        rw [h2] at h
        injection h with h1 _
        rw [← h1]
        obtain ⟨r, hr⟩ := ih L' Ls' h2
        exact ⟨r, by simp [← hr]⟩

theorem splitLinesL_tripleFree (l : List Char) (h : TripleFree l) :
    ∀ x ∈ splitLinesL l, TripleFree x := by
  induction l with
  | nil =>
    intro x hx
    simp [splitLinesL] at hx
    subst hx
    exact tripleFree_of_short _ (by simp)
  | cons c cs ih =>
    intro x hx
    unfold splitLinesL at hx
    split at hx
    · rcases List.mem_cons.mp hx with h1 | h1
      · subst h1; exact tripleFree_of_short _ (by simp)
      · exact ih (TripleFree.tail c cs h) x h1
    · next hc =>
      cases h2 : splitLinesL cs with
      | nil => exact absurd h2 (splitLinesL_ne_nil cs)
      | cons L Ls =>
        rw [h2] at hx
        have hL : TripleFree L :=
          ih (TripleFree.tail c cs h) L (by rw [h2]; exact List.mem_cons_self _ _)
        rcases List.mem_cons.mp hx with h1 | h1
        · subst h1
          by_cases hcb : c = btick
          · subst hcb
            apply TripleFree.cons_btick
            · intro t he
              obtain ⟨r, hr⟩ := splitLinesL_head_prefix cs L Ls h2
              rw [he] at hr
              exact h [] (t ++ r) (by simp [← hr])
            · exact hL
          · exact TripleFree.cons c L hcb hL
        · exact ih (TripleFree.tail c cs h) x (by rw [h2]; exact List.mem_cons_of_mem _ h1)

theorem tripleFree_append_newline (a b : List Char) (ha : TripleFree a) (hb : TripleFree b) :
    TripleFree (a ++ '\n' :: b) := by
  induction a with
  | nil => exact TripleFree.cons '\n' b (by decide) hb
  | cons c a' ih =>
    have ha' : TripleFree a' := TripleFree.tail c a' ha
    by_cases hc : c = btick
    · subst hc
      show TripleFree (btick :: (a' ++ '\n' :: b))
      apply TripleFree.cons_btick
      · intro t he
        cases a' with
        | nil =>
          rw [List.nil_append] at he
          injection he with h1 _
          exact absurd h1 (by decide)
        | cons d a'' =>
          rw [List.cons_append] at he
          injection he with h1 h2
          cases a'' with
          | nil =>
            rw [List.nil_append] at h2
            injection h2 with h3 _
            exact absurd h3 (by decide)
          | cons e a3 =>
            rw [List.cons_append] at h2
            injection h2 with h3 _
            exact ha [] a3 (by simp [h1, h3])
      · exact ih ha'
    · exact TripleFree.cons c _ hc (ih ha')

theorem joinLinesL_tripleFree (M : List (List Char)) (h : ∀ x ∈ M, TripleFree x) :
    TripleFree (joinLinesL M) := by
  induction M with
  | nil => exact tripleFree_of_short _ (by simp [joinLinesL])
  | cons x M ih =>
    cases M with
    | nil => simpa [joinLinesL] using h x (by simp)
    | cons y Ms =>
      rw [joinLinesL]
      exact tripleFree_append_newline _ _ (h x (by simp))
        (ih (fun z hz => h z (by simp [hz])))

/-! ### Stripping: idempotence and interaction with lines -/

theorem pyStripL_idem (l : List Char) : pyStripL (pyStripL l) = pyStripL l := by
  induction l with
  | nil => rfl
  | cons c cs ih =>
    by_cases h : isPyWs c
    · have h1 : pyStripL (c :: cs) = pyStripL cs := by simp [pyStripL, List.dropWhile, h]
      rw [h1, ih]
    · have h1 : pyStripL (c :: cs) = c :: cs := by simp [pyStripL, List.dropWhile, h]
      rw [h1]
      exact h1

theorem pyStripL_suffix (l : List Char) : pyStripL l <:+ l := List.dropWhile_suffix _

theorem pyStripR_prefixOf (l : List Char) : pyStripR l <+: l := by
  have h := pyStripL_suffix l.reverse
  obtain ⟨u, hu⟩ := h
  refine ⟨u.reverse, ?_⟩
  have := congrArg List.reverse hu
  simpa [pyStripR] using this

theorem pyStripR_idem (l : List Char) : pyStripR (pyStripR l) = pyStripR l := by
  unfold pyStripR
  rw [List.reverse_reverse, pyStripL_idem]

theorem pyStripL_head (l : List Char) (c : Char) (t : List Char)
    (h : pyStripL l = c :: t) : isPyWs c = false := by
  induction l with
  | nil => simp [pyStripL] at h
  | cons a as ih =>
    by_cases ha : isPyWs a
    · rw [show pyStripL (a :: as) = pyStripL as by simp [pyStripL, List.dropWhile, ha]] at h
      exact ih h
    · rw [show pyStripL (a :: as) = a :: as by simp [pyStripL, List.dropWhile, ha]] at h
      injection h with h1 _
      subst h1
      simpa using ha

theorem pyStripL_eq_self_of_head (l : List Char) (c : Char) (t : List Char)
    (hl : l = c :: t) (hc : isPyWs c = false) : pyStripL l = l := by
  subst hl
  simp [pyStripL, List.dropWhile, hc]

theorem pyStripList_idem (l : List Char) : pyStripList (pyStripList l) = pyStripList l := by
  unfold pyStripList
  have key : pyStripL (pyStripR (pyStripL l)) = pyStripR (pyStripL l) := by
    cases h : pyStripR (pyStripL l) with
    | nil => rfl
    | cons c t =>
      obtain ⟨r, hr⟩ := pyStripR_prefixOf (pyStripL l)
      rw [h] at hr
      have hc : isPyWs c = false := pyStripL_head l c (t ++ r) (by rw [← hr]; simp)
      exact pyStripL_eq_self_of_head _ c t rfl hc
  rw [key, pyStripR_idem]

theorem tripleFree_pyStripL (l : List Char) (h : TripleFree l) : TripleFree (pyStripL l) :=
  TripleFree.infix l _ h (pyStripL_suffix l).isInfix

theorem tripleFree_pyStripR (l : List Char) (h : TripleFree l) : TripleFree (pyStripR l) :=
  TripleFree.infix l _ h (pyStripR_prefixOf l).isInfix

theorem tripleFree_pyStripList (l : List Char) (h : TripleFree l) :
    TripleFree (pyStripList l) :=
  tripleFree_pyStripR _ (tripleFree_pyStripL l h)

/-- Stripping is blind to a leading whitespace character. -/
theorem pyStripList_cons_ws (c : Char) (l : List Char) (hc : isPyWs c = true) :
    pyStripList (c :: l) = pyStripList l := by
  unfold pyStripList
  rw [show pyStripL (c :: l) = pyStripL l by simp [pyStripL, List.dropWhile, hc]]

theorem pyStripR_snoc_ws (c : Char) (l : List Char) (hc : isPyWs c = true) :
    pyStripR (l ++ [c]) = pyStripR l := by
  unfold pyStripR
  rw [List.reverse_append]
  simp only [List.reverse_cons, List.reverse_nil, List.nil_append, List.singleton_append]
  rw [show pyStripL (c :: l.reverse) = pyStripL l.reverse by
    simp [pyStripL, List.dropWhile, hc]]

theorem pyStripR_snoc_keep (c : Char) (l : List Char) (hc : isPyWs c = false) :
    pyStripR (l ++ [c]) = l ++ [c] := by
  unfold pyStripR
  rw [List.reverse_append]
  simp only [List.reverse_cons, List.reverse_nil, List.nil_append, List.singleton_append]
  rw [show pyStripL (c :: l.reverse) = c :: l.reverse by
    simp [pyStripL, List.dropWhile, hc]]
  simp

/-- Stripping is blind to a trailing whitespace character. -/
theorem pyStripList_snoc_ws (c : Char) (l : List Char) (hc : isPyWs c = true) :
    pyStripList (l ++ [c]) = pyStripList l := by
  by_cases hall : pyStripL l = []
  · have h2 : pyStripL (l ++ [c]) = pyStripL [c] := by
      unfold pyStripL at hall ⊢
      rw [List.dropWhile_append, hall]
      simp
    unfold pyStripList
    rw [h2, hall]
    simp [pyStripL, List.dropWhile, hc, pyStripR]
  · have h2 : pyStripL (l ++ [c]) = pyStripL l ++ [c] := by
      unfold pyStripL at hall ⊢
      rw [List.dropWhile_append]
      simp [hall]
    unfold pyStripList
    rw [h2, pyStripR_snoc_ws c _ hc]

/-! ### Line deduplication -/

theorem dedupLinesAux_subset (seen : List (List Char)) (M : List (List Char)) :
    ∀ x ∈ dedupLinesAux seen M, x ∈ M := by
  induction M generalizing seen with
  | nil => simp [dedupLinesAux]
  | cons y ys ih =>
    intro x hx
    unfold dedupLinesAux at hx
    split at hx
    · exact List.mem_cons_of_mem _ (ih seen x hx)
    · rcases List.mem_cons.mp hx with h | h
      · exact h ▸ List.mem_cons_self _ _
      · exact List.mem_cons_of_mem _ (ih _ x h)

theorem dedupLinesAux_keys (seen : List (List Char)) (M : List (List Char)) :
    ((dedupLinesAux seen M).map pyStripList).Nodup ∧
    ∀ x ∈ dedupLinesAux seen M, pyStripList x ∉ seen := by
  induction M generalizing seen with
  | nil => simp [dedupLinesAux]
  | cons y ys ih =>
    unfold dedupLinesAux
    split
    · exact ih seen
    · next hy =>
      obtain ⟨ih1, ih2⟩ := ih (pyStripList y :: seen)
      constructor
      · simp only [List.map_cons, List.nodup_cons]
        refine ⟨?_, ih1⟩
        intro hmem
        obtain ⟨x, hx, hkey⟩ := List.mem_map.mp hmem
        exact ih2 x hx (by rw [hkey]; exact List.mem_cons_self _ _)
      · intro x hx
        rcases List.mem_cons.mp hx with h | h
        · subst h; exact hy
        · intro hseen
          exact ih2 x h (List.mem_cons_of_mem _ hseen)

theorem dedupLinesAux_eq_self (seen : List (List Char)) (M : List (List Char))
    (hnd : (M.map pyStripList).Nodup) (hdisj : ∀ x ∈ M, pyStripList x ∉ seen) :
    dedupLinesAux seen M = M := by
  induction M generalizing seen with
  | nil => rfl
  | cons y ys ih =>
    unfold dedupLinesAux
    rw [if_neg (hdisj y (List.mem_cons_self _ _))]
    congr 1
    simp only [List.map_cons, List.nodup_cons] at hnd
    apply ih _ hnd.2
    intro x hx
    intro hmem
    rcases List.mem_cons.mp hmem with h | h
    · exact hnd.1 (h ▸ List.mem_map_of_mem pyStripList hx)
    · exact hdisj x (List.mem_cons_of_mem _ hx) h

theorem dedupLines_ne_nil (M : List (List Char)) (h : M ≠ []) : dedupLines M ≠ [] := by
  cases M with
  | nil => exact absurd rfl h
  | cons y ys =>
    unfold dedupLines dedupLinesAux
    rw [if_neg (by simp)]
    simp

/-! ### split of join -/

theorem splitLinesL_no_nl_single (m : List Char) (h : '\n' ∉ m) : splitLinesL m = [m] := by
  induction m with
  | nil => rfl
  | cons c m' ih =>
    have hc : c ≠ '\n' := fun he => h (he ▸ List.mem_cons_self _ _)
    unfold splitLinesL
    rw [if_neg hc]
    rw [ih (fun hm => h (List.mem_cons_of_mem _ hm))]

theorem splitLinesL_append_nl (m R : List Char) (h : '\n' ∉ m) :
    splitLinesL (m ++ '\n' :: R) = m :: splitLinesL R := by
  induction m with
  | nil =>
    rw [List.nil_append]
    simp [splitLinesL]
  | cons c m' ih =>
    have hc : c ≠ '\n' := fun he => h (he ▸ List.mem_cons_self _ _)
    rw [List.cons_append]
    simp only [splitLinesL]
    rw [if_neg hc]
    rw [ih (fun hm => h (List.mem_cons_of_mem _ hm))]

theorem splitLinesL_joinLinesL (M : List (List Char)) (hM : M ≠ [])
    (h : ∀ x ∈ M, '\n' ∉ x) : splitLinesL (joinLinesL M) = M := by
  induction M with
  | nil => exact absurd rfl hM
  | cons m M' ih =>
    cases M' with
    | nil =>
      rw [show joinLinesL [m] = m from rfl]
      exact splitLinesL_no_nl_single m (h m (by simp))
    | cons m2 Ms =>
      rw [joinLinesL]
      rw [splitLinesL_append_nl _ _ (h m (by simp))]
      rw [ih (by simp) (fun x hx => h x (List.mem_cons_of_mem _ hx))]

/-! ### Stripping the joined text only erases or lightly trims lines -/

def modLast (f : List Char → List Char) : List (List Char) → List (List Char)
  | [] => []
  | [x] => [f x]
  | x :: y :: xs => x :: modLast f (y :: xs)

theorem splitLinesL_snoc_nl (X : List Char) :
    splitLinesL (X ++ ['\n']) = splitLinesL X ++ [[]] := by
  induction X with
  | nil => rfl
  | cons c cs ih =>
    by_cases hc : c = '\n'
    · subst hc
      have e1 : splitLinesL ('\n' :: (cs ++ ['\n'])) = [] :: splitLinesL (cs ++ ['\n']) := by
        simp [splitLinesL]
      have e2 : splitLinesL ('\n' :: cs) = [] :: splitLinesL cs := by simp [splitLinesL]
      rw [List.cons_append, e1, ih, e2]
      simp
    · cases h2 : splitLinesL cs with
      | nil => exact absurd h2 (splitLinesL_ne_nil cs)
      | cons L Ls =>
        have e2 : splitLinesL (c :: cs) = (c :: L) :: Ls := by simp [splitLinesL, hc, h2]
        have e1 : splitLinesL (c :: (cs ++ ['\n'])) = (c :: L) :: (Ls ++ [[]]) := by
          simp [splitLinesL, hc, ih, h2]
        rw [List.cons_append, e1, e2]
        simp

theorem splitLinesL_snoc_ch (c : Char) (hc : c ≠ '\n') (X : List Char) :
    splitLinesL (X ++ [c]) = modLast (fun L => L ++ [c]) (splitLinesL X) := by
  induction X with
  | nil => simp [splitLinesL, hc, modLast]
  | cons d ds ih =>
    by_cases hd : d = '\n'
    · subst hd
      have e1 : splitLinesL ('\n' :: (ds ++ [c])) = [] :: splitLinesL (ds ++ [c]) := by
        simp [splitLinesL]
      have e2 : splitLinesL ('\n' :: ds) = [] :: splitLinesL ds := by simp [splitLinesL]
      rw [List.cons_append, e1, ih, e2]
      cases h2 : splitLinesL ds with
      | nil => exact absurd h2 (splitLinesL_ne_nil ds)
      | cons L Ls => rfl
    · cases h2 : splitLinesL ds with
      | nil => exact absurd h2 (splitLinesL_ne_nil ds)
      | cons L Ls =>
        have e2 : splitLinesL (d :: ds) = (d :: L) :: Ls := by simp [splitLinesL, hd, h2]
        have e1 : splitLinesL (d :: (ds ++ [c]))
            = match splitLinesL (ds ++ [c]) with
              | [] => [[d]]
              | L' :: Ls' => (d :: L') :: Ls' := by
          simp [splitLinesL, hd]
        rw [List.cons_append, e1, ih, h2, e2]
        cases Ls with
        | nil => rfl
        | cons L2 Ls2 => rfl

theorem modLast_map_key (c : Char) (hw : isPyWs c = true) (M : List (List Char)) :
    (modLast (fun L => L ++ [c]) M).map pyStripList = M.map pyStripList := by
  induction M with
  | nil => rfl
  | cons x xs ih =>
    cases xs with
    | nil => simp [modLast, pyStripList_snoc_ws c x hw]
    | cons y ys =>
      rw [show modLast (fun L => L ++ [c]) (x :: y :: ys)
          = x :: modLast (fun L => L ++ [c]) (y :: ys) from rfl]
      simp only [List.map_cons]
      rw [ih]
      rfl

theorem map_key_split_stripL (X : List Char) :
    List.Sublist ((splitLinesL (pyStripL X)).map pyStripList)
      ((splitLinesL X).map pyStripList) := by
  induction X with
  | nil => exact List.Sublist.refl _
  | cons c cs ih =>
    by_cases hw : isPyWs c
    · rw [show pyStripL (c :: cs) = pyStripL cs by simp [pyStripL, List.dropWhile, hw]]
      refine ih.trans ?_
      by_cases hnl : c = '\n'
      · subst hnl
        rw [show splitLinesL ('\n' :: cs) = [] :: splitLinesL cs by simp [splitLinesL]]
        simp only [List.map_cons]
        exact (List.Sublist.refl _).cons _
      · cases h2 : splitLinesL cs with
        | nil => exact absurd h2 (splitLinesL_ne_nil cs)
        | cons L Ls =>
          rw [show splitLinesL (c :: cs) = (c :: L) :: Ls by simp [splitLinesL, hnl, h2]]
          simp only [List.map_cons]
          rw [pyStripList_cons_ws c L hw]
    · rw [show pyStripL (c :: cs) = c :: cs by simp [pyStripL, List.dropWhile, hw]]

theorem map_key_split_stripR (X : List Char) :
    List.Sublist ((splitLinesL (pyStripR X)).map pyStripList)
      ((splitLinesL X).map pyStripList) := by
  induction X using List.reverseRecOn with
  | nil => exact List.Sublist.refl _
  | append_singleton X c ih =>
    by_cases hw : isPyWs c
    · rw [pyStripR_snoc_ws c X hw]
      refine ih.trans ?_
      by_cases hnl : c = '\n'
      · subst hnl
        rw [splitLinesL_snoc_nl]
        simp only [List.map_append]
        exact List.sublist_append_left _ _
      · rw [splitLinesL_snoc_ch c hnl, modLast_map_key c hw]
    · rw [pyStripR_snoc_keep c X (by simpa using hw)]

theorem map_key_split_strip (X : List Char) :
    List.Sublist ((splitLinesL (pyStripList X)).map pyStripList)
      ((splitLinesL X).map pyStripList) :=
  (map_key_split_stripR (pyStripL X)).trans (map_key_split_stripL X)

/-! ### The dedup stage is a projection and `preBlock` is idempotent -/

theorem tripleFree_dedupStage (u : List Char) (h : TripleFree u) :
    TripleFree (dedupStage u) := by
  unfold dedupStage
  apply tripleFree_pyStripList
  apply joinLinesL_tripleFree
  intro x hx
  exact splitLinesL_tripleFree u h x (dedupLinesAux_subset [] _ x hx)

theorem dedupStage_idem (u : List Char) : dedupStage (dedupStage u) = dedupStage u := by
  have hM : dedupLines (splitLinesL u) ≠ [] := dedupLines_ne_nil _ (splitLinesL_ne_nil u)
  have hnl : ∀ x ∈ dedupLines (splitLinesL u), '\n' ∉ x := fun x hx =>
    splitLinesL_no_nl u x (dedupLinesAux_subset [] _ x hx)
  have hnd : ((dedupLines (splitLinesL u)).map pyStripList).Nodup :=
    (dedupLinesAux_keys [] (splitLinesL u)).1
  have hsub := map_key_split_strip (joinLinesL (dedupLines (splitLinesL u)))
  rw [splitLinesL_joinLinesL _ hM hnl] at hsub
  have hnd2 : ((splitLinesL (pyStripList (joinLinesL (dedupLines (splitLinesL u))))).map
      pyStripList).Nodup := hnd.sublist hsub
  show dedupStage (pyStripList (joinLinesL (dedupLines (splitLinesL u))))
      = pyStripList (joinLinesL (dedupLines (splitLinesL u)))
  unfold dedupStage
  rw [show dedupLines (splitLinesL (pyStripList (joinLinesL (dedupLines (splitLinesL u)))))
        = splitLinesL (pyStripList (joinLinesL (dedupLines (splitLinesL u)))) from
      dedupLinesAux_eq_self [] _ hnd2 (fun x _ => List.not_mem_nil _)]
  rw [joinLinesL_splitLinesL]
  exact pyStripList_idem _

theorem preBlock_tripleFree (l : List Char) : TripleFree (preBlock l) :=
  tripleFree_dedupStage _ (subFence_tripleFree _)

theorem preBlock_preBlock (l : List Char) : preBlock (preBlock l) = preBlock l := by
  have htf : TripleFree (preBlock l) := preBlock_tripleFree l
  have hstrip : pyStripList (preBlock l) = preBlock l := pyStripList_idem _
  show dedupStage (subFence (subFenceYaml (pyStripList (preBlock l)))) = preBlock l
  rw [hstrip, subFenceYaml_eq_self _ htf, subFence_eq_self _ htf]
  exact dedupStage_idem _

/-- C8 (amended): the patch cleanup is NOT idempotent in general (see
`cleanup_not_idempotent`: when more than one `spec:` block survives the first
pass, the longest-block selection can expose lines with equal stripped forms
that the second pass then deduplicates).  It IS idempotent on every input for
which at most one `spec:` block remains after the strip/fence/dedup pass: the
second run then reproduces the first run's output exactly. -/
theorem cleanup_idempotent_on_few_blocks (l : List Char)
    (h : (findSpecBlocks (preBlock l)).length ≤ 1) :
    cleanupPatch (cleanupPatch l) = cleanupPatch l := by
  have hb : blockStage (preBlock l) = preBlock l := by
    simp only [blockStage]
    rw [if_neg (by omega)]
  by_cases hc : preBlock l = [] ∨
      toLowerL (preBlock l) ∈ ["# none".toList, "none".toList, ([] : List Char)]
  · have h1 : cleanupPatch l = "# none".toList := by
      unfold cleanupPatch
      rw [hb]
      unfold noneNorm
      rw [if_pos hc]
    rw [h1]
    decide
  · have h1 : cleanupPatch l = preBlock l := by
      unfold cleanupPatch
      rw [hb]
      unfold noneNorm
      rw [if_neg hc]
    rw [h1]
    unfold cleanupPatch
    rw [preBlock_preBlock, hb]
    unfold noneNorm
    rw [if_neg hc]

theorem cleanup_idempotent_on_few_blocks_witness :
    (findSpecBlocks (preBlock "spec:\n  replicas: 2".toList)).length ≤ 1 ∧
    cleanupPatch (cleanupPatch "spec:\n  replicas: 2".toList)
      = cleanupPatch "spec:\n  replicas: 2".toList :=
  ⟨by decide, cleanup_idempotent_on_few_blocks _ (by decide)⟩
